import Mathlib

/-!
Verification development for the wechatnext conversation-persistence core.

The TypeScript sources are shallowly embedded:
* `netlify/functions/chat.ts` — the `POST /chat` handler (`chatHandler`);
* `netlify/functions/conversations.ts` — the index CRUD handler (`convHandler`);
* the client component's `inferTitleFrom` title heuristic and its guard.

JavaScript strings are modelled as Lean `String`/`List Char`; JSON values as
the inductive `Json` (`JSON.stringify`/`JSON.parse` round-tripping at the
value level is abstracted by storing `Json` values in blobs); an unparseable
persisted blob is the `Blob.corrupt` constructor.  `Date.now()` results and
the generated UUID are explicit parameters.  The upstream OpenAI stream is a
list of already-consumed delta fragments plus an aborted flag.
-/

/-! ## JSON values and the blob store -/

/-- JSON value, as produced by `JSON.parse`.  Numbers are modelled as exact
integers (timestamps are epoch millis, exactly representable). -/
inductive Json where
  | jnull
  | jbool (b : Bool)
  | jnum (n : Int)
  | jstr (s : String)
  | jarr (elems : List Json)
  | jobj (fields : List (String × Json))

/-- A persisted blob: either a JSON value (what `JSON.stringify` wrote) or
unparseable content. -/
inductive Blob where
  | jsonVal (j : Json)
  | corrupt

/-- The Netlify blob store: a key-value map. -/
abbrev Store := String → Option Blob

def emptyStore : Store := fun _ => none

/-- `store.set(key, JSON.stringify(v))`. -/
def setBlob (st : Store) (k : String) (j : Json) : Store :=
  fun q => if q = k then some (.jsonVal j) else st q

/-- A store with unparseable content at `k` (for modelling corruption). -/
def putCorrupt (st : Store) (k : String) : Store :=
  fun q => if q = k then some .corrupt else st q

/-- `store.delete(key)`. -/
def delBlob (st : Store) (k : String) : Store :=
  fun q => if q = k then none else st q

/-! ## JavaScript string primitives used by the sources -/

/-- Whitespace for JS `\s` / `String.prototype.trim` (space, tab, LF, CR,
vertical tab, form feed, NBSP, BOM). -/
def jsWs (c : Char) : Bool :=
  c == ' ' || c == '\t' || c == '\n' || c == '\r' || c == Char.ofNat 11 ||
    c == Char.ofNat 12 || c == Char.ofNat 160 || c == Char.ofNat 65279

def jsTrimList (l : List Char) : List Char :=
  ((l.dropWhile jsWs).reverse.dropWhile jsWs).reverse

/-- JS `s.trim()`. -/
def jsTrim (s : String) : String := ⟨jsTrimList s.data⟩

/-- JS `s.slice(0, n)` (for non-negative bounds). -/
def strTake (s : String) (n : Nat) : String := ⟨s.data.take n⟩

/-- JS `s.toUpperCase()` (character-wise basic-latin uppercasing). -/
def strUpper (s : String) : String := ⟨s.data.map Char.toUpper⟩

/-- JS truthiness of a JSON value. -/
def jtruthy : Json → Bool
  | .jnull => false
  | .jbool b => b
  | .jnum n => !(n == 0)
  | .jstr s => !(s == "")
  | .jarr _ => true
  | .jobj _ => true

/-- JS truthiness of a possibly-absent field (`undefined` is falsy). -/
def jtruthyOpt : Option Json → Bool
  | none => false
  | some j => jtruthy j

mutual

/-- JS `String(v)` / `v.toString()` on a JSON value. -/
def jsToString : Json → String
  | .jnull => "null"
  | .jbool true => "true"
  | .jbool false => "false"
  | .jnum n => toString n
  | .jstr s => s
  | .jarr es => String.intercalate "," (jsToStrings es)
  | .jobj _ => "[object Object]"

def jsToStrings : List Json → List String
  | [] => []
  | j :: js => jsToString j :: jsToStrings js
end

/-- `v ?? d` (nullish coalescing) on a possibly-absent field. -/
def nullishGetD (f : Option Json) (d : Json) : Json :=
  match f with
  | none => d
  | some .jnull => d
  | some j => j

/-- The pattern `typeof v === "string" && v.trim() ? v.trim() : <fallback>`:
returns the trimmed string when the field holds a string with non-blank trim. -/
def nonBlankStr : Option Json → Option String
  | some (.jstr s) => if jsTrim s = "" then none else some (jsTrim s)
  | _ => none

/-! ## Messages and their JSON encoding (chat.ts) -/

inductive Role where
  | user
  | assistant
deriving DecidableEq

structure ChatMessage where
  role : Role
  content : String
  ts : Int
deriving DecidableEq

def roleStr : Role → String
  | .user => "user"
  | .assistant => "assistant"

/-- `JSON.stringify` of one `{ role, content, ts }` message. -/
def encodeMsg (m : ChatMessage) : Json :=
  .jobj [("role", .jstr (roleStr m.role)), ("content", .jstr m.content), ("ts", .jnum m.ts)]

/-- `JSON.stringify` of a whole log. -/
def encodeLog (l : List ChatMessage) : Json :=
  .jarr (l.map encodeMsg)

def decodeMsg : Json → Option ChatMessage
  | .jobj fs =>
    match fs.lookup "role", fs.lookup "content", fs.lookup "ts" with
    | some (.jstr r), some (.jstr c), some (.jnum t) =>
      if r = "user" then some ⟨.user, c, t⟩
      else if r = "assistant" then some ⟨.assistant, c, t⟩
      else none
    | _, _, _ => none
  | _ => none

def decodeMsgs : List Json → Option (List ChatMessage)
  | [] => some []
  | j :: js =>
    match decodeMsg j, decodeMsgs js with
    | some m, some ms => some (m :: ms)
    | _, _ => none

def decodeLog : Json → Option (List ChatMessage)
  | .jarr es => decodeMsgs es
  | _ => none

/-- The blob key for a conversation id (`keyFor` in chat.ts). -/
def keyFor (id : String) : String := "conversations/" ++ id ++ ".json"

/-- Outcome of `store.get(key, { type: "json" }) as ChatMessage[] | null ?? []`.
A missing blob reads as the empty log; unparseable JSON throws (`corrupt`);
parseable JSON that is not a message array is blindly cast by the JS code and
is outside this model (`illTyped`). -/
inductive ReadErr where
  | corrupt
  | illTyped
deriving DecidableEq

def readHistory (st : Store) (key : String) : Except ReadErr (List ChatMessage) :=
  match st key with
  | none => .ok []
  | some .corrupt => .error .corrupt
  | some (.jsonVal j) =>
    match decodeLog j with
    | some l => .ok l
    | none => .error .illTyped

/-! ## The POST /chat handler (chat.ts) -/

structure ChatEnv where
  openaiModel : Option String
  hasApiKey : Bool

/-- `const FALLBACK_MODEL = process.env.OPENAI_MODEL ?? "gpt-4o-mini"`. -/
def fallbackModel (env : ChatEnv) : String :=
  env.openaiModel.getD "gpt-4o-mini"

/-- Request body fields (`BodyIn` in chat.ts); `none` means absent. -/
structure ChatBody where
  message : Option Json
  newConversation : Option Json
  conversationId : Option Json
  model : Option Json

/-- The parts of the request the handler reads: method, the two query
switches, and the parsed JSON body (`none` when `req.json()` throws). -/
structure ChatReq where
  httpMethod : String
  ping : Bool
  debug : Bool
  body : Option ChatBody

/-- One character of the model-id check `/^[a-zA-Z0-9._-]{1,200}$/`. -/
def isModelChar (c : Char) : Bool :=
  c.isAlpha || c.isDigit || c == '.' || c == '_' || c == '-'

/-- The model-id regex `/^[a-zA-Z0-9._-]{1,200}$/`. -/
def modelRegexOk (s : String) : Bool :=
  decide (1 ≤ s.data.length) && decide (s.data.length ≤ 200) && s.data.all isModelChar

/-- `const chosenModel = (typeof model === "string" && model.trim()) ? model.trim() : FALLBACK_MODEL`. -/
def chosenModelOf (env : ChatEnv) (b : ChatBody) : String :=
  (nonBlankStr b.model).getD (fallbackModel env)

/-- `let id = (typeof conversationId === "string" && conversationId.trim()) ? conversationId.trim() : crypto.randomUUID()`. -/
def idOf (b : ChatBody) (freshId : String) : String :=
  (nonBlankStr b.conversationId).getD freshId

/-- The upstream completion request actually issued (model plus the history
projected to `{role, content}` pairs, timestamps stripped). -/
structure UpstreamCall where
  model : String
  messages : List (Role × String)
deriving DecidableEq

/-- Behaviour of the upstream provider for this invocation: the request is
rejected outright, or it yields `frags` (the delta fragments consumed before
the stream either finished normally or aborted). -/
inductive UpstreamBehavior where
  | fail
  | reply (frags : List String) (aborted : Bool)

/-- `assistant += delta` over the consumed chunks (empty deltas are skipped,
which does not change the concatenation). -/
def accumFrags (frags : List String) : String :=
  frags.foldl (fun acc d => if d = "" then acc else acc ++ d) ""

/-- The text appended to the response body when the stream errors. -/
def abortMarker : String := "\n[stream aborted]\n"

inductive ChatResp where
  | pingOk
  | methodNotAllowed
  | missingKey
  | invalidModel
  | newOk (id : String)
  | messageRequired
  | streamOk (id : String) (body : String) (aborted : Bool)
  | debugOk (id : String) (reply : String)
  | upstreamError
  | internalError
  | unmodeled
deriving DecidableEq

structure ChatOutcome where
  resp : ChatResp
  store : Store
  upstreamCalled : Option UpstreamCall

/-- Shallow embedding of the default export of `netlify/functions/chat.ts`.
`freshId` is the `crypto.randomUUID()` result, `now`/`ts2` the two
`Date.now()` results, `up` the upstream provider's behaviour. -/
def chatHandler (env : ChatEnv) (req : ChatReq) (freshId : String) (now ts2 : Int)
    (up : UpstreamBehavior) (st : Store) : ChatOutcome :=
  if req.ping then ⟨.pingOk, st, none⟩
  else if req.httpMethod ≠ "POST" then ⟨.methodNotAllowed, st, none⟩
  else if ¬ env.hasApiKey then ⟨.missingKey, st, none⟩
  else
    match req.body with
    | none => ⟨.internalError, st, none⟩
    | some b =>
      if ¬ modelRegexOk (chosenModelOf env b) then ⟨.invalidModel, st, none⟩
      else
        let id := idOf b freshId
        let key := keyFor id
        if jtruthyOpt b.newConversation then
          ⟨.newOk id, setBlob st key (encodeLog []), none⟩
        else
          match nonBlankStr b.message with
          | none => ⟨.messageRequired, st, none⟩
          | some txt =>
            match readHistory st key with
            | .error .corrupt => ⟨.internalError, st, none⟩
            | .error .illTyped => ⟨.unmodeled, st, none⟩
            | .ok history =>
              let updated := history ++ [⟨.user, txt, now⟩]
              let call : UpstreamCall :=
                ⟨chosenModelOf env b, updated.map (fun m => (m.role, m.content))⟩
              if req.debug then
                match up with
                | .fail => ⟨.upstreamError, st, some call⟩
                | .reply frags _ =>
                  let reply := accumFrags frags
                  ⟨.debugOk id reply,
                    setBlob st key (encodeLog (updated ++ [⟨.assistant, reply, ts2⟩])),
                    some call⟩
              else
                match up with
                | .fail => ⟨.internalError, st, some call⟩
                | .reply frags aborted =>
                  if aborted then
                    ⟨.streamOk id (accumFrags frags ++ abortMarker) true, st, some call⟩
                  else
                    ⟨.streamOk id (accumFrags frags) false,
                      setBlob st key (encodeLog (updated ++ [⟨.assistant, accumFrags frags, ts2⟩])),
                      some call⟩

/-! ## Conversation metadata and the index (conversations.ts) -/

structure ConvMeta where
  id : String
  title : String
  model : String
  createdAt : Int
  updatedAt : Int
deriving DecidableEq

def INDEX_KEY : String := "conversations/index.json"

def encodeMeta (m : ConvMeta) : Json :=
  .jobj [("id", .jstr m.id), ("title", .jstr m.title), ("model", .jstr m.model),
    ("createdAt", .jnum m.createdAt), ("updatedAt", .jnum m.updatedAt)]

def encodeIndex (l : List ConvMeta) : Json :=
  .jarr (l.map encodeMeta)

def decodeMeta : Json → Option ConvMeta
  | .jobj fs =>
    match fs.lookup "id", fs.lookup "title", fs.lookup "model",
        fs.lookup "createdAt", fs.lookup "updatedAt" with
    | some (.jstr i), some (.jstr t), some (.jstr m), some (.jnum c), some (.jnum u) =>
      some ⟨i, t, m, c, u⟩
    | _, _, _, _, _ => none
  | _ => none

/-- `loadIndex`: `Array.isArray(raw) ? raw : []`, with corrupt or missing
data caught and turned into `[]`.  Array elements that are not well-formed
metadata objects would be blindly cast by the JS code; the model drops them. -/
def loadIndex (st : Store) : List ConvMeta :=
  match st INDEX_KEY with
  | some (.jsonVal (.jarr es)) => es.filterMap decodeMeta
  | _ => []

/-- Stable insertion (most recent first) for the `updatedAt` descending sort. -/
def insertDesc (m : ConvMeta) : List ConvMeta → List ConvMeta
  | [] => [m]
  | x :: xs => if m.updatedAt ≥ x.updatedAt then m :: x :: xs else x :: insertDesc m xs

/-- `list.sort((a, b) => b.updatedAt - a.updatedAt)` (stable). -/
def sortDesc : List ConvMeta → List ConvMeta
  | [] => []
  | x :: xs => insertDesc x (sortDesc xs)

/-- `findIndex` on id plus the in-place partial update of the PATCH branch:
returns the updated list and the updated entry, or `none` when no entry
matches (the 404 case). -/
def patchList (effId : String) (titleOpt modelOpt : Option String) (now : Int) :
    List ConvMeta → Option (List ConvMeta × ConvMeta)
  | [] => none
  | x :: xs =>
    if x.id = effId then
      let upd : ConvMeta :=
        { x with title := titleOpt.getD x.title, model := modelOpt.getD x.model, updatedAt := now }
      some (upd :: xs, upd)
    else
      match patchList effId titleOpt modelOpt now xs with
      | none => none
      | some (xs2, m) => some (x :: xs2, m)

structure ConvEnv where
  openaiModel : Option String
  supportsDelete : Bool

/-- Request body fields for /conversations; `none` means absent (a JSON
parse failure is caught by the code and treated as `{}`, i.e. all absent). -/
structure ConvBody where
  id : Option Json
  title : Option Json
  model : Option Json

structure ConvReq where
  httpMethod : String
  queryId : Option String
  body : ConvBody

/-- `const id = String(body?.id || "")`. -/
def effIdOf (req : ConvReq) : String :=
  match req.body.id with
  | some j => if jtruthy j then jsToString j else ""
  | none => ""

/-- `typeof body?.title === "string" ? body.title : undefined`, then `.slice(0, 60)`. -/
def titleOptOf (req : ConvReq) : Option String :=
  match req.body.title with
  | some (.jstr s) => some (strTake s 60)
  | _ => none

/-- `typeof body?.model === "string" ? body.model : undefined`. -/
def modelOptOf (req : ConvReq) : Option String :=
  match req.body.model with
  | some (.jstr s) => some s
  | _ => none

/-- JS falsiness of an optional string (`undefined` or `""`). -/
def strFalsy : Option String → Bool
  | none => true
  | some s => s == ""

inductive ConvResp where
  | listing (items : List ConvMeta)
  | created (id : String)
  | patched (m : ConvMeta)
  | deletedOk
  | badRequest
  | notFound
  | methodNotAllowed
deriving DecidableEq

structure ConvOutcome where
  resp : ConvResp
  store : Store
  writes : List (String × Json)

/-- Replay a prefix of the write trace (to examine crash intermediate states). -/
def applyWrites (st : Store) : List (String × Json) → Store
  | [] => st
  | (k, v) :: ws => applyWrites (setBlob st k v) ws

/-- The default model of the POST /conversations branch:
`process.env.OPENAI_MODEL ?? "gpt-5-nano-2025-08-07"`. -/
def convDefaultModel (env : ConvEnv) : String :=
  env.openaiModel.getD "gpt-5-nano-2025-08-07"

/-- The metadata entry built by the POST branch. -/
def postMeta (env : ConvEnv) (req : ConvReq) (freshId : String) (now : Int) : ConvMeta :=
  { id := freshId
    title := strTake (jsToString (nullishGetD req.body.title (.jstr "New chat"))) 60
    model := jsToString (nullishGetD req.body.model (.jstr (convDefaultModel env)))
    createdAt := now
    updatedAt := now }

/-- Shallow embedding of the default export of `netlify/functions/conversations.ts`. -/
def convHandler (env : ConvEnv) (req : ConvReq) (freshId : String) (now : Int)
    (st : Store) : ConvOutcome :=
  let method := strUpper req.httpMethod
  if method = "GET" then
    ⟨.listing (sortDesc (loadIndex st)), st, []⟩
  else if method = "POST" then
    let meta := postMeta env req freshId now
    let list := loadIndex st
    let w1 : String × Json := (INDEX_KEY, encodeIndex (meta :: list))
    let w2 : String × Json := (keyFor freshId, encodeLog [])
    ⟨.created freshId, applyWrites st [w1, w2], [w1, w2]⟩
  else if method = "PATCH" then
    let effId := effIdOf req
    let titleOpt := titleOptOf req
    let modelOpt := modelOptOf req
    if effId = "" ∨ (strFalsy titleOpt ∧ strFalsy modelOpt) then
      ⟨.badRequest, st, []⟩
    else
      match patchList effId titleOpt modelOpt now (loadIndex st) with
      | none => ⟨.notFound, st, []⟩
      | some (list2, m) =>
        let w1 : String × Json := (INDEX_KEY, encodeIndex list2)
        ⟨.patched m, applyWrites st [w1], [w1]⟩
  else if method = "DELETE" then
    match req.queryId with
    | none => ⟨.badRequest, st, []⟩
    | some qid =>
      let list2 := (loadIndex st).filter (fun x => x.id ≠ qid)
      let w1 : String × Json := (INDEX_KEY, encodeIndex list2)
      let st2 := applyWrites st [w1]
      let st3 := if env.supportsDelete then delBlob st2 (keyFor qid) else st2
      ⟨.deletedOk, st3, [w1]⟩
  else
    ⟨.methodNotAllowed, st, []⟩

/-! ## Title inference (client component `inferTitleFrom`) -/

/-- The apostrophe character U+0027 (written via its code point). -/
def squote : Char := Char.ofNat 39

/-- One character of the cleanup class `[“”"':]`. -/
def quoteChar (c : Char) : Bool :=
  c == '“' || c == '”' || c == '"' || c == squote || c == ':'

/-- A dash of the class `[-–—]`. -/
def isDashChar (c : Char) : Bool :=
  c == '-' || c == '–' || c == '—'

/-- Global replace of `/\s+/` by a single space (left-to-right scan over the
character list, each maximal whitespace run collapsing to one space). -/
def collapseWs : List Char → List Char
  | [] => []
  | c :: cs =>
    if jsWs c then ' ' :: collapseWs (cs.dropWhile jsWs)
    else c :: collapseWs cs
termination_by l => l.length
decreasing_by
  all_goals simp only [List.length_cons]
  · have := (List.dropWhile_sublist (l := cs) jsWs).length_le
    omega
  · omega

/-- Global replace of `/\s*[-–—]\s*/` by `" - "`: the leftmost match starts
at the whitespace run preceding a dash (or at the dash itself) and greedily
consumes the whitespace following it. -/
def dashNorm : List Char → List Char
  | [] => []
  | c :: cs =>
    if isDashChar c then ' ' :: '-' :: ' ' :: dashNorm (cs.dropWhile jsWs)
    else if jsWs c ∧ ((cs.dropWhile jsWs).head?.any isDashChar) then
      ' ' :: '-' :: ' ' :: dashNorm (((cs.dropWhile jsWs).tail).dropWhile jsWs)
    else c :: dashNorm cs
termination_by l => l.length
decreasing_by
  all_goals simp only [List.length_cons]
  · have := (List.dropWhile_sublist (l := cs) jsWs).length_le
    omega
  · have h1 := (List.dropWhile_sublist (l := (cs.dropWhile jsWs).tail) jsWs).length_le
    have h2 := (List.dropWhile_sublist (l := cs) jsWs).length_le
    have h3 := List.length_tail (cs.dropWhile jsWs)
    omega
  · omega

/-- `noPunct.split(" ")` (split on every single space, keeping empty pieces). -/
def splitSp : List Char → List (List Char)
  | [] => [[]]
  | c :: cs =>
    if c = ' ' then [] :: splitSp cs
    else
      match splitSp cs with
      | [] => [[c]]
      | w :: ws => (c :: w) :: ws

/-- `.join(" ")`. -/
def joinSp : List (List Char) → List Char
  | [] => []
  | [w] => w
  | w :: ws => w ++ ' ' :: joinSp ws

/-- The horizontal ellipsis appended on truncation. -/
def hellip : Char := Char.ofNat 8230

/-- The Unicode Default Case Conversion uppercase mappings that expand a
single code point to several (SpecialCasing.txt, unconditional entries in
the basic multilingual plane).  JS `toUpperCase` applies these, so e.g.
the sharp s U+00DF uppercases to "SS". -/
def specialUpperTable : List (Char × List Char) := [
  (Char.ofNat 0x00DF, [Char.ofNat 0x0053, Char.ofNat 0x0053]),
  (Char.ofNat 0x0149, [Char.ofNat 0x02BC, Char.ofNat 0x004E]),
  (Char.ofNat 0x01F0, [Char.ofNat 0x004A, Char.ofNat 0x030C]),
  (Char.ofNat 0x0390, [Char.ofNat 0x0399, Char.ofNat 0x0308, Char.ofNat 0x0301]),
  (Char.ofNat 0x03B0, [Char.ofNat 0x03A5, Char.ofNat 0x0308, Char.ofNat 0x0301]),
  (Char.ofNat 0x0587, [Char.ofNat 0x0535, Char.ofNat 0x0552]),
  (Char.ofNat 0x1E96, [Char.ofNat 0x0048, Char.ofNat 0x0331]),
  (Char.ofNat 0x1E97, [Char.ofNat 0x0054, Char.ofNat 0x0308]),
  (Char.ofNat 0x1E98, [Char.ofNat 0x0057, Char.ofNat 0x030A]),
  (Char.ofNat 0x1E99, [Char.ofNat 0x0059, Char.ofNat 0x030A]),
  (Char.ofNat 0x1E9A, [Char.ofNat 0x0041, Char.ofNat 0x02BE]),
  (Char.ofNat 0x1F50, [Char.ofNat 0x03A5, Char.ofNat 0x0313]),
  (Char.ofNat 0x1F52, [Char.ofNat 0x03A5, Char.ofNat 0x0313, Char.ofNat 0x0300]),
  (Char.ofNat 0x1F54, [Char.ofNat 0x03A5, Char.ofNat 0x0313, Char.ofNat 0x0301]),
  (Char.ofNat 0x1F56, [Char.ofNat 0x03A5, Char.ofNat 0x0313, Char.ofNat 0x0342]),
  (Char.ofNat 0x1F80, [Char.ofNat 0x1F08, Char.ofNat 0x0399]),
  (Char.ofNat 0x1F81, [Char.ofNat 0x1F09, Char.ofNat 0x0399]),
  (Char.ofNat 0x1F82, [Char.ofNat 0x1F0A, Char.ofNat 0x0399]),
  (Char.ofNat 0x1F83, [Char.ofNat 0x1F0B, Char.ofNat 0x0399]),
  (Char.ofNat 0x1F84, [Char.ofNat 0x1F0C, Char.ofNat 0x0399]),
  (Char.ofNat 0x1F85, [Char.ofNat 0x1F0D, Char.ofNat 0x0399]),
  (Char.ofNat 0x1F86, [Char.ofNat 0x1F0E, Char.ofNat 0x0399]),
  (Char.ofNat 0x1F87, [Char.ofNat 0x1F0F, Char.ofNat 0x0399]),
  (Char.ofNat 0x1F88, [Char.ofNat 0x1F08, Char.ofNat 0x0399]),
  (Char.ofNat 0x1F89, [Char.ofNat 0x1F09, Char.ofNat 0x0399]),
  (Char.ofNat 0x1F8A, [Char.ofNat 0x1F0A, Char.ofNat 0x0399]),
  (Char.ofNat 0x1F8B, [Char.ofNat 0x1F0B, Char.ofNat 0x0399]),
  (Char.ofNat 0x1F8C, [Char.ofNat 0x1F0C, Char.ofNat 0x0399]),
  (Char.ofNat 0x1F8D, [Char.ofNat 0x1F0D, Char.ofNat 0x0399]),
  (Char.ofNat 0x1F8E, [Char.ofNat 0x1F0E, Char.ofNat 0x0399]),
  (Char.ofNat 0x1F8F, [Char.ofNat 0x1F0F, Char.ofNat 0x0399]),
  (Char.ofNat 0x1F90, [Char.ofNat 0x1F28, Char.ofNat 0x0399]),
  (Char.ofNat 0x1F91, [Char.ofNat 0x1F29, Char.ofNat 0x0399]),
  (Char.ofNat 0x1F92, [Char.ofNat 0x1F2A, Char.ofNat 0x0399]),
  (Char.ofNat 0x1F93, [Char.ofNat 0x1F2B, Char.ofNat 0x0399]),
  (Char.ofNat 0x1F94, [Char.ofNat 0x1F2C, Char.ofNat 0x0399]),
  (Char.ofNat 0x1F95, [Char.ofNat 0x1F2D, Char.ofNat 0x0399]),
  (Char.ofNat 0x1F96, [Char.ofNat 0x1F2E, Char.ofNat 0x0399]),
  (Char.ofNat 0x1F97, [Char.ofNat 0x1F2F, Char.ofNat 0x0399]),
  (Char.ofNat 0x1F98, [Char.ofNat 0x1F28, Char.ofNat 0x0399]),
  (Char.ofNat 0x1F99, [Char.ofNat 0x1F29, Char.ofNat 0x0399]),
  (Char.ofNat 0x1F9A, [Char.ofNat 0x1F2A, Char.ofNat 0x0399]),
  (Char.ofNat 0x1F9B, [Char.ofNat 0x1F2B, Char.ofNat 0x0399]),
  (Char.ofNat 0x1F9C, [Char.ofNat 0x1F2C, Char.ofNat 0x0399]),
  (Char.ofNat 0x1F9D, [Char.ofNat 0x1F2D, Char.ofNat 0x0399]),
  (Char.ofNat 0x1F9E, [Char.ofNat 0x1F2E, Char.ofNat 0x0399]),
  (Char.ofNat 0x1F9F, [Char.ofNat 0x1F2F, Char.ofNat 0x0399]),
  (Char.ofNat 0x1FA0, [Char.ofNat 0x1F68, Char.ofNat 0x0399]),
  (Char.ofNat 0x1FA1, [Char.ofNat 0x1F69, Char.ofNat 0x0399]),
  (Char.ofNat 0x1FA2, [Char.ofNat 0x1F6A, Char.ofNat 0x0399]),
  (Char.ofNat 0x1FA3, [Char.ofNat 0x1F6B, Char.ofNat 0x0399]),
  (Char.ofNat 0x1FA4, [Char.ofNat 0x1F6C, Char.ofNat 0x0399]),
  (Char.ofNat 0x1FA5, [Char.ofNat 0x1F6D, Char.ofNat 0x0399]),
  (Char.ofNat 0x1FA6, [Char.ofNat 0x1F6E, Char.ofNat 0x0399]),
  (Char.ofNat 0x1FA7, [Char.ofNat 0x1F6F, Char.ofNat 0x0399]),
  (Char.ofNat 0x1FA8, [Char.ofNat 0x1F68, Char.ofNat 0x0399]),
  (Char.ofNat 0x1FA9, [Char.ofNat 0x1F69, Char.ofNat 0x0399]),
  (Char.ofNat 0x1FAA, [Char.ofNat 0x1F6A, Char.ofNat 0x0399]),
  (Char.ofNat 0x1FAB, [Char.ofNat 0x1F6B, Char.ofNat 0x0399]),
  (Char.ofNat 0x1FAC, [Char.ofNat 0x1F6C, Char.ofNat 0x0399]),
  (Char.ofNat 0x1FAD, [Char.ofNat 0x1F6D, Char.ofNat 0x0399]),
  (Char.ofNat 0x1FAE, [Char.ofNat 0x1F6E, Char.ofNat 0x0399]),
  (Char.ofNat 0x1FAF, [Char.ofNat 0x1F6F, Char.ofNat 0x0399]),
  (Char.ofNat 0x1FB2, [Char.ofNat 0x1FBA, Char.ofNat 0x0399]),
  (Char.ofNat 0x1FB3, [Char.ofNat 0x0391, Char.ofNat 0x0399]),
  (Char.ofNat 0x1FB4, [Char.ofNat 0x0386, Char.ofNat 0x0399]),
  (Char.ofNat 0x1FB6, [Char.ofNat 0x0391, Char.ofNat 0x0342]),
  (Char.ofNat 0x1FB7, [Char.ofNat 0x0391, Char.ofNat 0x0342, Char.ofNat 0x0399]),
  (Char.ofNat 0x1FBC, [Char.ofNat 0x0391, Char.ofNat 0x0399]),
  (Char.ofNat 0x1FC2, [Char.ofNat 0x1FCA, Char.ofNat 0x0399]),
  (Char.ofNat 0x1FC3, [Char.ofNat 0x0397, Char.ofNat 0x0399]),
  (Char.ofNat 0x1FC4, [Char.ofNat 0x0389, Char.ofNat 0x0399]),
  (Char.ofNat 0x1FC6, [Char.ofNat 0x0397, Char.ofNat 0x0342]),
  (Char.ofNat 0x1FC7, [Char.ofNat 0x0397, Char.ofNat 0x0342, Char.ofNat 0x0399]),
  (Char.ofNat 0x1FCC, [Char.ofNat 0x0397, Char.ofNat 0x0399]),
  (Char.ofNat 0x1FD2, [Char.ofNat 0x0399, Char.ofNat 0x0308, Char.ofNat 0x0300]),
  (Char.ofNat 0x1FD3, [Char.ofNat 0x0399, Char.ofNat 0x0308, Char.ofNat 0x0301]),
  (Char.ofNat 0x1FD6, [Char.ofNat 0x0399, Char.ofNat 0x0342]),
  (Char.ofNat 0x1FD7, [Char.ofNat 0x0399, Char.ofNat 0x0308, Char.ofNat 0x0342]),
  (Char.ofNat 0x1FE2, [Char.ofNat 0x03A5, Char.ofNat 0x0308, Char.ofNat 0x0300]),
  (Char.ofNat 0x1FE3, [Char.ofNat 0x03A5, Char.ofNat 0x0308, Char.ofNat 0x0301]),
  (Char.ofNat 0x1FE4, [Char.ofNat 0x03A1, Char.ofNat 0x0313]),
  (Char.ofNat 0x1FE6, [Char.ofNat 0x03A5, Char.ofNat 0x0342]),
  (Char.ofNat 0x1FE7, [Char.ofNat 0x03A5, Char.ofNat 0x0308, Char.ofNat 0x0342]),
  (Char.ofNat 0x1FF2, [Char.ofNat 0x1FFA, Char.ofNat 0x0399]),
  (Char.ofNat 0x1FF3, [Char.ofNat 0x03A9, Char.ofNat 0x0399]),
  (Char.ofNat 0x1FF4, [Char.ofNat 0x038F, Char.ofNat 0x0399]),
  (Char.ofNat 0x1FF6, [Char.ofNat 0x03A9, Char.ofNat 0x0342]),
  (Char.ofNat 0x1FF7, [Char.ofNat 0x03A9, Char.ofNat 0x0342, Char.ofNat 0x0399]),
  (Char.ofNat 0x1FFC, [Char.ofNat 0x03A9, Char.ofNat 0x0399]),
  (Char.ofNat 0xFB00, [Char.ofNat 0x0046, Char.ofNat 0x0046]),
  (Char.ofNat 0xFB01, [Char.ofNat 0x0046, Char.ofNat 0x0049]),
  (Char.ofNat 0xFB02, [Char.ofNat 0x0046, Char.ofNat 0x004C]),
  (Char.ofNat 0xFB03, [Char.ofNat 0x0046, Char.ofNat 0x0046, Char.ofNat 0x0049]),
  (Char.ofNat 0xFB04, [Char.ofNat 0x0046, Char.ofNat 0x0046, Char.ofNat 0x004C]),
  (Char.ofNat 0xFB05, [Char.ofNat 0x0053, Char.ofNat 0x0054]),
  (Char.ofNat 0xFB06, [Char.ofNat 0x0053, Char.ofNat 0x0054]),
  (Char.ofNat 0xFB13, [Char.ofNat 0x0544, Char.ofNat 0x0546]),
  (Char.ofNat 0xFB14, [Char.ofNat 0x0544, Char.ofNat 0x0535]),
  (Char.ofNat 0xFB15, [Char.ofNat 0x0544, Char.ofNat 0x053B]),
  (Char.ofNat 0xFB16, [Char.ofNat 0x054E, Char.ofNat 0x0546]),
  (Char.ofNat 0xFB17, [Char.ofNat 0x0544, Char.ofNat 0x053D])]

/-- JS `"c".toUpperCase()` for a single UTF-16 code unit: the multi-character
special casing where one applies, else the one-to-one mapping (modelled by
`Char.toUpper`; one-to-one mappings outside basic latin are length-preserving
and abstracted).  A lone surrogate (an astral first character split by
`charAt`) uppercases to itself, which the fallback also yields. -/
def jsUpperChar (c : Char) : List Char :=
  (specialUpperTable.lookup c).getD [c.toUpper]

/-- `title.charAt(0).toUpperCase() + title.slice(1)`. -/
def capFirst : List Char → List Char
  | [] => []
  | c :: cs => jsUpperChar c ++ cs

/-- `firstUser || firstAssistant || "New chat"` (JS string truthiness). -/
def titleBase (firstUser firstAssistant : List Char) : List Char :=
  if firstUser ≠ [] then firstUser
  else if firstAssistant ≠ [] then firstAssistant
  else "New chat".data

/-- The character-list body of `inferTitleFrom`. -/
def inferTitleCore (firstUser firstAssistant : List Char) : List Char :=
  let base := jsTrimList (collapseWs (titleBase firstUser firstAssistant))
  let noPunct := dashNorm (base.filter (fun c => !(quoteChar c)))
  let words := joinSp ((splitSp noPunct).take 10)
  let title := if 56 < words.length then words.take 53 ++ [hellip] else words
  capFirst title

/-- The client heuristic `inferTitleFrom(firstUser, firstAssistant)`. -/
def inferTitleFrom (firstUser firstAssistant : String) : String :=
  ⟨inferTitleCore firstUser.data firstAssistant.data⟩

/-- A message as held in the client component state. -/
structure CMessage where
  role : Role
  content : String
deriving DecidableEq

/-- The guarded PATCH issued after streaming ends:
`if (assistantMessage && messages.length === 1 && conversationId) { ... }`,
returning the `{id, title}` pair it would send, or `none`. -/
def titlePatch (messages : List CMessage) (assistantMessage : String)
    (conversationId : Option String) : Option (String × String) :=
  if assistantMessage ≠ "" ∧ messages.length = 1 ∧ (conversationId.getD "") ≠ "" then
    some ((conversationId.getD ""),
      inferTitleFrom (((messages.head?).map (fun m => m.content)).getD "") assistantMessage)
  else none

/-! ## Round-trip lemmas for the JSON encodings -/

theorem decodeMsg_encodeMsg (m : ChatMessage) : decodeMsg (encodeMsg m) = some m := by
  cases m with
  | mk role content ts => cases role <;> simp [encodeMsg, decodeMsg, roleStr, List.lookup]

theorem decodeMsgs_encode (l : List ChatMessage) :
    decodeMsgs (l.map encodeMsg) = some l := by
  induction l with
  | nil => rfl
  | cons m ms ih => simp [decodeMsgs, decodeMsg_encodeMsg, ih]

theorem decodeLog_encodeLog (l : List ChatMessage) : decodeLog (encodeLog l) = some l := by
  simp [decodeLog, encodeLog, decodeMsgs_encode]

theorem readHistory_setBlob_self (st : Store) (k : String) (l : List ChatMessage) :
    readHistory (setBlob st k (encodeLog l)) k = .ok l := by
  simp [readHistory, setBlob, decodeLog_encodeLog]

theorem setBlob_other (st : Store) (k q : String) (j : Json) (h : q ≠ k) :
    setBlob st k j q = st q := by
  simp [setBlob, h]

theorem decodeMeta_encodeMeta (m : ConvMeta) : decodeMeta (encodeMeta m) = some m := by
  cases m with
  | mk id title model c u => simp [encodeMeta, decodeMeta, List.lookup]

theorem filterMap_decodeMeta_encode (l : List ConvMeta) :
    (l.map encodeMeta).filterMap decodeMeta = l := by
  induction l with
  | nil => rfl
  | cons m ms ih => simp [decodeMeta_encodeMeta, ih]

theorem loadIndex_setIndex (st : Store) (l : List ConvMeta) :
    loadIndex (setBlob st INDEX_KEY (encodeIndex l)) = l := by
  have h := filterMap_decodeMeta_encode l
  simpa [loadIndex, setBlob, encodeIndex, Function.comp] using h

/-! ## Character lemmas about `Char.toUpper` -/

theorem isLower_iff_toNat (c : Char) : c.isLower = true ↔ 97 ≤ c.toNat ∧ c.toNat ≤ 122 := by
  simp [Char.isLower, UInt32.le_def, BitVec.le_def, Char.toNat, UInt32.toNat]

theorem toUpper_cases (c : Char) :
    (c.toUpper = c ∧ ¬ (97 ≤ c.toNat ∧ c.toNat ≤ 122)) ∨
    (65 ≤ c.toUpper.toNat ∧ c.toUpper.toNat ≤ 90) := by
  by_cases h : 97 ≤ c.toNat ∧ c.toNat ≤ 122
  · right
    have hv : Nat.isValidChar (c.toNat - 32) := Or.inl (by omega)
    have ht : (Char.ofNat (c.toNat - 32)).toNat = c.toNat - 32 := by
      rw [Char.ofNat, dif_pos hv]; rfl
    have hu : c.toUpper = Char.ofNat (c.toNat - 32) := by
      simp only [Char.toUpper]
      rw [if_pos ⟨h.1, h.2⟩]
    rw [hu, ht]
    omega
  · left
    refine ⟨?_, h⟩
    simp only [Char.toUpper]
    rw [if_neg (fun hc => h ⟨hc.1, hc.2⟩)]

theorem isLower_toUpper (c : Char) : (c.toUpper).isLower = false := by
  rcases toUpper_cases c with ⟨heq, hn⟩ | ⟨h1, h2⟩
  · rw [heq]
    by_cases hl : c.isLower
    · exact absurd ((isLower_iff_toNat c).mp hl) hn
    · simpa using hl
  · by_cases hl : (c.toUpper).isLower
    · have := (isLower_iff_toNat _).mp hl
      omega
    · simpa using hl

theorem toUpper_eq_space_iff (c : Char) : c.toUpper = ' ' ↔ c = ' ' := by
  constructor
  · intro h
    rcases toUpper_cases c with ⟨heq, _⟩ | ⟨h1, h2⟩
    · rw [← heq]; exact h
    · exfalso
      rw [h] at h1
      exact absurd h1 (by decide)
  · rintro rfl
    decide

theorem quoteChar_toNat_mem (x : Char) (h : quoteChar x = true) :
    x.toNat = 8220 ∨ x.toNat = 8221 ∨ x.toNat = 34 ∨ x.toNat = 39 ∨ x.toNat = 58 := by
  simp only [quoteChar, Bool.or_eq_true, beq_iff_eq] at h
  rcases h with ((((rfl | rfl) | rfl) | rfl) | rfl) <;> decide

theorem quoteChar_toUpper (c : Char) (h : quoteChar c = false) :
    quoteChar c.toUpper = false := by
  rcases toUpper_cases c with ⟨heq, _⟩ | ⟨h1, h2⟩
  · rw [heq]; exact h
  · by_cases hq : quoteChar c.toUpper
    · rcases quoteChar_toNat_mem _ hq with h3 | h3 | h3 | h3 | h3 <;> omega
    · simpa using hq

/-! ## Claim C7: put/get round-trip -/

/-- C7: for every conversation id and every log `L` (messages with role,
content string and integer timestamp), writing the serialized log and reading
it back yields a log equal to `L` — the JSON serialization round-trips. -/
theorem chat_put_get_roundtrip (st : Store) (id : String) (L : List ChatMessage) :
    readHistory (setBlob st (keyFor id) (encodeLog L)) (keyFor id) = .ok L :=
  readHistory_setBlob_self st (keyFor id) L

/-! ## Claim C9: the ping health check -/

/-- C9: a request whose query string has `ping=1` is answered 200/"OK" before
the method check and the credentials check, regardless of HTTP method, with
the store untouched, the response independent of the stored data, and no
upstream call. -/
theorem chat_ping_bypass (env : ChatEnv) (req : ChatReq) (freshId : String)
    (now ts2 : Int) (up : UpstreamBehavior) (st : Store) (h : req.ping = true) :
    chatHandler env req freshId now ts2 up st = ⟨.pingOk, st, none⟩ := by
  simp [chatHandler, h]

theorem chat_ping_bypass_witness :
    (⟨"GET", true, false, none⟩ : ChatReq).ping = true ∧
    chatHandler ⟨none, false⟩ ⟨"GET", true, false, none⟩ "f0" 0 0 .fail emptyStore =
      ⟨.pingOk, emptyStore, none⟩ :=
  ⟨rfl, chat_ping_bypass ⟨none, false⟩ ⟨"GET", true, false, none⟩ "f0" 0 0 .fail emptyStore rfl⟩

/-! ## Claim C1: a successful turn commits the whole log once -/

/-- C1: for every valid non-empty text, a successful (non-aborted) streamed
turn replaces the whole log once: reading the conversation back afterwards
yields the previous entries unchanged followed by the trimmed user message
and the assistant message holding the accumulated stream fragments, and no
other key of the store is touched. -/
theorem chat_commit_appends
    (env : ChatEnv) (b : ChatBody) (raw freshId : String) (now ts2 : Int)
    (frags : List String) (st : Store) (L : List ChatMessage)
    (hkey : env.hasApiKey = true)
    (hmsg : b.message = some (.jstr raw)) (hraw : jsTrim raw ≠ "")
    (hnew : jtruthyOpt b.newConversation = false)
    (hmodel : modelRegexOk (chosenModelOf env b) = true)
    (hist : readHistory st (keyFor (idOf b freshId)) = .ok L) :
    (chatHandler env ⟨"POST", false, false, some b⟩ freshId now ts2
        (.reply frags false) st).resp = .streamOk (idOf b freshId) (accumFrags frags) false ∧
    readHistory (chatHandler env ⟨"POST", false, false, some b⟩ freshId now ts2
        (.reply frags false) st).store (keyFor (idOf b freshId)) =
      .ok (L ++ [⟨.user, jsTrim raw, now⟩, ⟨.assistant, accumFrags frags, ts2⟩]) ∧
    ∀ k, k ≠ keyFor (idOf b freshId) →
      (chatHandler env ⟨"POST", false, false, some b⟩ freshId now ts2
        (.reply frags false) st).store k = st k := by
  have hmsg2 : nonBlankStr b.message = some (jsTrim raw) := by
    simp [nonBlankStr, hmsg, hraw]
  simp only [chatHandler, hkey, hmsg2, hist, hmodel, hnew]
  refine ⟨by simp, ?_, ?_⟩
  · simp [readHistory_setBlob_self, List.append_assoc]
  · intro k hk
    simp [setBlob_other _ _ _ _ hk]

theorem chat_commit_appends_witness :
    jsTrim " hi " ≠ "" ∧
    ((chatHandler ⟨none, true⟩ ⟨"POST", false, false,
        some ⟨some (.jstr " hi "), none, some (.jstr "c1"), none⟩⟩ "f0" 5 7
        (.reply ["He", "llo"] false) emptyStore).resp =
      .streamOk (idOf ⟨some (.jstr " hi "), none, some (.jstr "c1"), none⟩ "f0")
        (accumFrags ["He", "llo"]) false ∧
    readHistory (chatHandler ⟨none, true⟩ ⟨"POST", false, false,
        some ⟨some (.jstr " hi "), none, some (.jstr "c1"), none⟩⟩ "f0" 5 7
        (.reply ["He", "llo"] false) emptyStore).store
        (keyFor (idOf ⟨some (.jstr " hi "), none, some (.jstr "c1"), none⟩ "f0")) =
      .ok ([] ++ [⟨.user, jsTrim " hi ", 5⟩, ⟨.assistant, accumFrags ["He", "llo"], 7⟩]) ∧
    ∀ k, k ≠ keyFor (idOf ⟨some (.jstr " hi "), none, some (.jstr "c1"), none⟩ "f0") →
      (chatHandler ⟨none, true⟩ ⟨"POST", false, false,
        some ⟨some (.jstr " hi "), none, some (.jstr "c1"), none⟩⟩ "f0" 5 7
        (.reply ["He", "llo"] false) emptyStore).store k = emptyStore k) :=
  ⟨by decide,
    chat_commit_appends ⟨none, true⟩ ⟨some (.jstr " hi "), none, some (.jstr "c1"), none⟩
      " hi " "f0" 5 7 ["He", "llo"] emptyStore []
      rfl rfl (by decide) rfl (by decide) rfl⟩

/-! ## Claim C2: an aborted stream commits nothing -/

/-- C2: if the upstream stream aborts partway (or the upstream request fails
outright) during a non-debug send, no write happens: the store after the
call is exactly the store before it, so neither the user message nor the
partial assistant text is persisted. -/
theorem chat_abort_no_write
    (env : ChatEnv) (b : ChatBody) (raw freshId : String) (now ts2 : Int)
    (up : UpstreamBehavior) (frags : List String) (st : Store) (L : List ChatMessage)
    (hkey : env.hasApiKey = true)
    (hmsg : b.message = some (.jstr raw)) (hraw : jsTrim raw ≠ "")
    (hnew : jtruthyOpt b.newConversation = false)
    (hmodel : modelRegexOk (chosenModelOf env b) = true)
    (hist : readHistory st (keyFor (idOf b freshId)) = .ok L)
    (hup : up = .reply frags true ∨ up = .fail) :
    (chatHandler env ⟨"POST", false, false, some b⟩ freshId now ts2 up st).store = st := by
  have hmsg2 : nonBlankStr b.message = some (jsTrim raw) := by
    simp [nonBlankStr, hmsg, hraw]
  rcases hup with rfl | rfl <;>
    simp only [chatHandler, hkey, hmsg2, hist, hmodel, hnew] <;> simp

theorem chat_abort_no_write_witness :
    jsTrim "hi" ≠ "" ∧
    (chatHandler ⟨none, true⟩ ⟨"POST", false, false,
        some ⟨some (.jstr "hi"), none, some (.jstr "c1"), none⟩⟩ "f0" 5 7
        (.reply ["par", "tial"] true) emptyStore).store = emptyStore :=
  ⟨by decide,
    chat_abort_no_write ⟨none, true⟩ ⟨some (.jstr "hi"), none, some (.jstr "c1"), none⟩
      "hi" "f0" 5 7 (.reply ["par", "tial"] true) ["par", "tial"] emptyStore []
      rfl rfl (by decide) rfl (by decide) rfl (Or.inl rfl)⟩

/-! ## Shared branch lemmas for the /chat handler -/

theorem nonBlankStr_eq_none_iff (f : Option Json) :
    nonBlankStr f = none ↔ ¬ ∃ s, f = some (.jstr s) ∧ jsTrim s ≠ "" := by
  cases f with
  | none => simp [nonBlankStr]
  | some j =>
    cases j with
    | jstr s =>
      by_cases h : jsTrim s = "" <;> simp [nonBlankStr, h]
    | jnull => simp [nonBlankStr]
    | jbool b => simp [nonBlankStr]
    | jnum n => simp [nonBlankStr]
    | jarr es => simp [nonBlankStr]
    | jobj fs => simp [nonBlankStr]

theorem model_bad_iff (b : ChatBody) :
    (∃ m, b.model = some (.jstr m) ∧ jsTrim m ≠ "" ∧ modelRegexOk (jsTrim m) = false) ↔
    (∃ t, nonBlankStr b.model = some t ∧ modelRegexOk t = false) := by
  cases hb : b.model with
  | none => simp [nonBlankStr, hb]
  | some j =>
    cases j with
    | jstr s =>
      by_cases h : jsTrim s = "" <;> simp [nonBlankStr, hb, h]
    | jnull => simp [nonBlankStr, hb]
    | jbool b2 => simp [nonBlankStr, hb]
    | jnum n => simp [nonBlankStr, hb]
    | jarr es => simp [nonBlankStr, hb]
    | jobj fs => simp [nonBlankStr, hb]

theorem chat_invalid_model_case
    (env : ChatEnv) (b : ChatBody) (freshId : String) (now ts2 : Int)
    (debug : Bool) (up : UpstreamBehavior) (st : Store)
    (hkey : env.hasApiKey = true)
    (hmodel : modelRegexOk (chosenModelOf env b) = false) :
    chatHandler env ⟨"POST", false, debug, some b⟩ freshId now ts2 up st =
      ⟨.invalidModel, st, none⟩ := by
  simp [chatHandler, hkey, hmodel]

theorem chat_message_required_case
    (env : ChatEnv) (b : ChatBody) (freshId : String) (now ts2 : Int)
    (debug : Bool) (up : UpstreamBehavior) (st : Store)
    (hkey : env.hasApiKey = true)
    (hmodel : modelRegexOk (chosenModelOf env b) = true)
    (hnew : jtruthyOpt b.newConversation = false)
    (hmsg : nonBlankStr b.message = none) :
    chatHandler env ⟨"POST", false, debug, some b⟩ freshId now ts2 up st =
      ⟨.messageRequired, st, none⟩ := by
  simp [chatHandler, hkey, hmodel, hnew, hmsg]

theorem chat_branch_facts
    (env : ChatEnv) (b : ChatBody) (freshId : String) (now ts2 : Int)
    (debug : Bool) (up : UpstreamBehavior) (st : Store)
    (hkey : env.hasApiKey = true)
    (hmodel : modelRegexOk (chosenModelOf env b) = true) :
    (chatHandler env ⟨"POST", false, debug, some b⟩ freshId now ts2 up st).resp ≠ .invalidModel ∧
    (jtruthyOpt b.newConversation = false → nonBlankStr b.message ≠ none →
      (chatHandler env ⟨"POST", false, debug, some b⟩ freshId now ts2 up st).resp ≠ .messageRequired) ∧
    (∀ call, (chatHandler env ⟨"POST", false, debug, some b⟩ freshId now ts2 up st).upstreamCalled
        = some call → call.model = chosenModelOf env b) := by
  cases hnc : jtruthyOpt b.newConversation with
  | true => simp [chatHandler, hkey, hmodel, hnc]
  | false =>
    cases hmsg : nonBlankStr b.message with
    | none => simp [chatHandler, hkey, hmodel, hnc, hmsg]
    | some txt =>
      rcases hist : readHistory st (keyFor (idOf b freshId)) with e | L
      · cases e <;> simp [chatHandler, hkey, hmodel, hnc, hmsg, hist]
      · cases debug with
        | true =>
          cases up with
          | fail => simp [chatHandler, hkey, hmodel, hnc, hmsg, hist]
          | reply frags aborted => simp [chatHandler, hkey, hmodel, hnc, hmsg, hist]
        | false =>
          cases up with
          | fail => simp [chatHandler, hkey, hmodel, hnc, hmsg, hist]
          | reply frags aborted =>
            cases aborted <;> simp [chatHandler, hkey, hmodel, hnc, hmsg, hist]

/-! ## Claim C3 (corrected): corrupt data and the two readers -/

/-- C3 counterexample: with a corrupt blob stored under the conversation key,
an otherwise valid `POST /chat` turn returns the 500 internal error — the
identical request against a store with no blob at that key streams normally.
So corrupt persisted data does surface as an error status, contradicting the
claim. -/
theorem chat_corrupt_propagates :
    (chatHandler ⟨none, true⟩ ⟨"POST", false, false,
        some ⟨some (.jstr "hi"), none, some (.jstr "c1"), none⟩⟩ "f0" 5 7
        (.reply ["x"] false) (putCorrupt emptyStore (keyFor "c1"))).resp = .internalError ∧
    (chatHandler ⟨none, true⟩ ⟨"POST", false, false,
        some ⟨some (.jstr "hi"), none, some (.jstr "c1"), none⟩⟩ "f0" 5 7
        (.reply ["x"] false) emptyStore).resp = .streamOk "c1" "x" false := by
  constructor <;> decide

/-- C3 (amended): index reads fail closed — a missing or corrupt index blob
loads as the empty index with no error; a missing conversation blob reads as
the empty log; but a corrupt (unparseable) conversation blob is not
recovered: the chat request fails with the 500 internal error (and performs
no write). -/
theorem storage_fail_closed :
    (∀ st : Store, st INDEX_KEY = none ∨ st INDEX_KEY = some .corrupt → loadIndex st = []) ∧
    (∀ (st : Store) (k : String), st k = none → readHistory st k = .ok []) ∧
    (∀ (env : ChatEnv) (b : ChatBody) (freshId : String) (now ts2 : Int)
        (up : UpstreamBehavior) (st : Store),
      env.hasApiKey = true →
      jtruthyOpt b.newConversation = false →
      modelRegexOk (chosenModelOf env b) = true →
      nonBlankStr b.message ≠ none →
      st (keyFor (idOf b freshId)) = some .corrupt →
      (chatHandler env ⟨"POST", false, false, some b⟩ freshId now ts2 up st).resp
          = .internalError ∧
      (chatHandler env ⟨"POST", false, false, some b⟩ freshId now ts2 up st).store = st) := by
  refine ⟨?_, ?_, ?_⟩
  · intro st h
    rcases h with h | h <;> simp [loadIndex, h]
  · intro st k h
    simp [readHistory, h]
  · intro env b freshId now ts2 up st hkey hnew hmodel hmsg hcor
    have hrh : readHistory st (keyFor (idOf b freshId)) = .error .corrupt := by
      simp [readHistory, hcor]
    cases hm2 : nonBlankStr b.message with
    | none => exact absurd hm2 hmsg
    | some txt => simp [chatHandler, hkey, hnew, hmodel, hm2, hrh]

theorem storage_fail_closed_witness :
    loadIndex (putCorrupt emptyStore INDEX_KEY) = [] ∧
    readHistory emptyStore (keyFor "c9") = .ok [] ∧
    ((chatHandler ⟨none, true⟩ ⟨"POST", false, false,
        some ⟨some (.jstr "hi"), none, some (.jstr "c1"), none⟩⟩ "f0" 5 7
        (.reply ["x"] false) (putCorrupt emptyStore (keyFor "c1"))).resp = .internalError ∧
      (chatHandler ⟨none, true⟩ ⟨"POST", false, false,
        some ⟨some (.jstr "hi"), none, some (.jstr "c1"), none⟩⟩ "f0" 5 7
        (.reply ["x"] false) (putCorrupt emptyStore (keyFor "c1"))).store =
          putCorrupt emptyStore (keyFor "c1")) :=
  ⟨storage_fail_closed.1 (putCorrupt emptyStore INDEX_KEY) (Or.inr rfl),
   storage_fail_closed.2.1 emptyStore (keyFor "c9") rfl,
   storage_fail_closed.2.2 ⟨none, true⟩ ⟨some (.jstr "hi"), none, some (.jstr "c1"), none⟩
     "f0" 5 7 (.reply ["x"] false) (putCorrupt emptyStore (keyFor "c1"))
     rfl rfl (by decide) (by decide) rfl⟩

/-! ## Claim C5: validation of a non-newConversation POST /chat -/

/-- C5: for a `POST /chat` request that is not a newConversation request
(and with the server correctly configured, the fallback model id matching
the identifier syntax), the handler answers 400 exactly when the message is
not a string with non-whitespace content, or a provided non-blank model
string fails the identifier regex; and on a 400 nothing is written. -/
theorem chat_validation_iff
    (env : ChatEnv) (b : ChatBody) (freshId : String) (now ts2 : Int)
    (debug : Bool) (up : UpstreamBehavior) (st : Store)
    (hkey : env.hasApiKey = true)
    (hnew : jtruthyOpt b.newConversation = false)
    (hfb : modelRegexOk (fallbackModel env) = true) :
    (((chatHandler env ⟨"POST", false, debug, some b⟩ freshId now ts2 up st).resp = .invalidModel ∨
      (chatHandler env ⟨"POST", false, debug, some b⟩ freshId now ts2 up st).resp = .messageRequired) ↔
      ((¬ ∃ s, b.message = some (.jstr s) ∧ jsTrim s ≠ "") ∨
       (∃ m, b.model = some (.jstr m) ∧ jsTrim m ≠ "" ∧ modelRegexOk (jsTrim m) = false))) ∧
    (((chatHandler env ⟨"POST", false, debug, some b⟩ freshId now ts2 up st).resp = .invalidModel ∨
      (chatHandler env ⟨"POST", false, debug, some b⟩ freshId now ts2 up st).resp = .messageRequired) →
      (chatHandler env ⟨"POST", false, debug, some b⟩ freshId now ts2 up st).store = st) := by
  by_cases hmodel : modelRegexOk (chosenModelOf env b) = true
  · have hfacts := chat_branch_facts env b freshId now ts2 debug up st hkey hmodel
    have hmb : ¬ ∃ m, b.model = some (.jstr m) ∧ jsTrim m ≠ "" ∧ modelRegexOk (jsTrim m) = false := by
      rw [model_bad_iff]
      rintro ⟨t, ht, hbad⟩
      rw [chosenModelOf, ht] at hmodel
      simp at hmodel
      exact absurd hmodel (by simp [hbad])
    cases hmsg : nonBlankStr b.message with
    | none =>
      have hout := chat_message_required_case env b freshId now ts2 debug up st hkey hmodel hnew hmsg
      rw [hout]
      constructor
      · simp only [or_iff_left hmb]
        constructor
        · intro _
          exact (nonBlankStr_eq_none_iff b.message).mp hmsg
        · intro _
          simp
      · intro _
        rfl
    | some txt =>
      have hne : (chatHandler env ⟨"POST", false, debug, some b⟩ freshId now ts2 up st).resp
          ≠ .messageRequired := hfacts.2.1 hnew (by simp [hmsg])
      have hmsgok : ∃ s, b.message = some (.jstr s) ∧ jsTrim s ≠ "" := by
        by_contra hc
        exact absurd ((nonBlankStr_eq_none_iff b.message).mpr hc) (by simp [hmsg])
      constructor
      · constructor
        · intro h
          rcases h with h | h
          · exact absurd h hfacts.1
          · exact absurd h hne
        · intro h
          rcases h with h | h
          · exact absurd hmsgok h
          · exact absurd h hmb
      · intro h
        rcases h with h | h
        · exact absurd h hfacts.1
        · exact absurd h hne
  · have hmodel2 : modelRegexOk (chosenModelOf env b) = false := by
      simpa using hmodel
    have hout := chat_invalid_model_case env b freshId now ts2 debug up st hkey hmodel2
    rw [hout]
    have hq : ∃ t, nonBlankStr b.model = some t ∧ modelRegexOk t = false := by
      cases hm : nonBlankStr b.model with
      | none =>
        rw [chosenModelOf, hm] at hmodel2
        simp at hmodel2
        rw [hmodel2] at hfb
        exact absurd hfb (by simp)
      | some t =>
        refine ⟨t, rfl, ?_⟩
        rw [chosenModelOf, hm] at hmodel2
        simpa using hmodel2
    constructor
    · constructor
      · intro _
        right
        exact (model_bad_iff b).mpr hq
      · intro _
        simp
    · intro _
      rfl

theorem chat_validation_iff_witness :
    jtruthyOpt (none : Option Json) = false ∧
    modelRegexOk (fallbackModel ⟨none, true⟩) = true ∧
    ((((chatHandler ⟨none, true⟩ ⟨"POST", false, false, some ⟨some (.jstr "  "), none, none, none⟩⟩
        "f0" 5 7 (.reply [] false) emptyStore).resp = .invalidModel ∨
      (chatHandler ⟨none, true⟩ ⟨"POST", false, false, some ⟨some (.jstr "  "), none, none, none⟩⟩
        "f0" 5 7 (.reply [] false) emptyStore).resp = .messageRequired) ↔
      ((¬ ∃ s, (some (.jstr "  ") : Option Json) = some (.jstr s) ∧ jsTrim s ≠ "") ∨
       (∃ m, (none : Option Json) = some (.jstr m) ∧ jsTrim m ≠ "" ∧
          modelRegexOk (jsTrim m) = false))) ∧
    (((chatHandler ⟨none, true⟩ ⟨"POST", false, false, some ⟨some (.jstr "  "), none, none, none⟩⟩
        "f0" 5 7 (.reply [] false) emptyStore).resp = .invalidModel ∨
      (chatHandler ⟨none, true⟩ ⟨"POST", false, false, some ⟨some (.jstr "  "), none, none, none⟩⟩
        "f0" 5 7 (.reply [] false) emptyStore).resp = .messageRequired) →
      (chatHandler ⟨none, true⟩ ⟨"POST", false, false, some ⟨some (.jstr "  "), none, none, none⟩⟩
        "f0" 5 7 (.reply [] false) emptyStore).store = emptyStore)) :=
  ⟨rfl, by decide,
    chat_validation_iff ⟨none, true⟩ ⟨some (.jstr "  "), none, none, none⟩
      "f0" 5 7 false (.reply [] false) emptyStore rfl rfl (by decide)⟩

/-! ## Claim C10: the model fallback -/

/-- C10: when the model field is absent, not a string, or blank after
trimming, validation does not fail on the model: the fallback model id
(`OPENAI_MODEL`, else `"gpt-4o-mini"`) is substituted, the response is never
the invalid-model 400 (the fallback matching the identifier syntax), and any
upstream call issued for the turn carries the fallback model. -/
theorem chat_model_fallback
    (env : ChatEnv) (b : ChatBody) (freshId : String) (now ts2 : Int)
    (debug : Bool) (up : UpstreamBehavior) (st : Store)
    (hkey : env.hasApiKey = true)
    (hm : nonBlankStr b.model = none)
    (hfb : modelRegexOk (fallbackModel env) = true) :
    chosenModelOf env b = fallbackModel env ∧
    (chatHandler env ⟨"POST", false, debug, some b⟩ freshId now ts2 up st).resp ≠ .invalidModel ∧
    (∀ call, (chatHandler env ⟨"POST", false, debug, some b⟩ freshId now ts2 up st).upstreamCalled
        = some call → call.model = fallbackModel env) := by
  have hc : chosenModelOf env b = fallbackModel env := by
    simp [chosenModelOf, hm]
  have hmodel : modelRegexOk (chosenModelOf env b) = true := by
    rw [hc]; exact hfb
  have hfacts := chat_branch_facts env b freshId now ts2 debug up st hkey hmodel
  refine ⟨hc, hfacts.1, ?_⟩
  intro call hcall
  rw [← hc]
  exact hfacts.2.2 call hcall

theorem chat_model_fallback_witness :
    nonBlankStr (some (.jstr " ") : Option Json) = none ∧
    (chosenModelOf ⟨none, true⟩ ⟨some (.jstr "hi"), none, none, some (.jstr " ")⟩ =
      fallbackModel ⟨none, true⟩ ∧
    (chatHandler ⟨none, true⟩ ⟨"POST", false, false,
        some ⟨some (.jstr "hi"), none, none, some (.jstr " ")⟩⟩ "f0" 5 7
        (.reply ["x"] false) emptyStore).resp ≠ .invalidModel ∧
    (∀ call, (chatHandler ⟨none, true⟩ ⟨"POST", false, false,
        some ⟨some (.jstr "hi"), none, none, some (.jstr " ")⟩⟩ "f0" 5 7
        (.reply ["x"] false) emptyStore).upstreamCalled = some call →
      call.model = fallbackModel ⟨none, true⟩)) :=
  ⟨by decide,
    chat_model_fallback ⟨none, true⟩ ⟨some (.jstr "hi"), none, none, some (.jstr " ")⟩
      "f0" 5 7 false (.reply ["x"] false) emptyStore rfl (by decide) (by decide)⟩

/-! ## Index lemmas for /conversations -/

theorem loadIndex_congr (st1 st2 : Store) (h : st1 INDEX_KEY = st2 INDEX_KEY) :
    loadIndex st1 = loadIndex st2 := by
  simp [loadIndex, h]

theorem patchList_not_found (effId : String) (t m : Option String) (now : Int)
    (l : List ConvMeta) (h : ∀ y ∈ l, y.id ≠ effId) :
    patchList effId t m now l = none := by
  induction l with
  | nil => rfl
  | cons x xs ih =>
    have hx : x.id ≠ effId := h x (by simp)
    simp only [patchList, if_neg hx]
    rw [ih (fun y hy => h y (by simp [hy]))]

theorem patchList_found (effId : String) (t m : Option String) (now : Int)
    (pre : List ConvMeta) (x : ConvMeta) (post : List ConvMeta)
    (hpre : ∀ y ∈ pre, y.id ≠ effId) (hx : x.id = effId) :
    patchList effId t m now (pre ++ x :: post) =
      some (pre ++ ({ x with title := t.getD x.title, model := m.getD x.model, updatedAt := now } : ConvMeta) :: post, ({ x with title := t.getD x.title, model := m.getD x.model, updatedAt := now } : ConvMeta)) := by
  induction pre with
  | nil => simp [patchList, hx]
  | cons y ys ih =>
    have hy : y.id ≠ effId := hpre y (by simp)
    simp only [List.cons_append, patchList, if_neg hy, List.append_eq]
    rw [ih (fun z hz => hpre z (by simp [hz]))]

/-! ## Claim C4 (corrected): creation writes index first, then log -/

/-- C4 counterexample: on `POST /conversations` against the empty store the
first write is the index blob and the second the empty log — not log first.
Replaying only the first write (a crash between the two steps) leaves an
index entry for the new id with no log blob under its key. -/
theorem conv_create_order_counterexample :
    ((convHandler ⟨none, false⟩ ⟨"POST", none, ⟨none, none, none⟩⟩ "c1" 0 emptyStore).writes.map
        Prod.fst = [INDEX_KEY, keyFor "c1"]) ∧
    ¬ ((convHandler ⟨none, false⟩ ⟨"POST", none, ⟨none, none, none⟩⟩ "c1" 0 emptyStore).writes.map
        Prod.fst = [keyFor "c1", INDEX_KEY]) ∧
    ((loadIndex (applyWrites emptyStore
        ((convHandler ⟨none, false⟩ ⟨"POST", none, ⟨none, none, none⟩⟩ "c1" 0
          emptyStore).writes.take 1))).map (fun m => m.id) = ["c1"]) ∧
    (applyWrites emptyStore
        ((convHandler ⟨none, false⟩ ⟨"POST", none, ⟨none, none, none⟩⟩ "c1" 0
          emptyStore).writes.take 1)) (keyFor "c1") = none := by
  refine ⟨by decide, by decide, by decide, rfl⟩

/-- C4 (amended): `POST /conversations` writes the fresh id's metadata at the
front of the index first and the empty log under the id second, and returns
the id; a crash between the two steps can therefore leave an index entry
whose log blob is missing (which subsequent reads fail closed on), never an
orphan log. -/
theorem conv_create_order
    (env : ConvEnv) (req : ConvReq) (freshId : String) (now : Int) (st : Store)
    (hm : strUpper req.httpMethod = "POST")
    (hk : keyFor freshId ≠ INDEX_KEY) :
    (convHandler env req freshId now st).resp = .created freshId ∧
    (convHandler env req freshId now st).writes.map Prod.fst = [INDEX_KEY, keyFor freshId] ∧
    readHistory (convHandler env req freshId now st).store (keyFor freshId) = .ok [] ∧
    loadIndex (convHandler env req freshId now st).store =
      postMeta env req freshId now :: loadIndex st ∧
    (postMeta env req freshId now).id = freshId ∧
    applyWrites st ((convHandler env req freshId now st).writes.take 1) (keyFor freshId) =
      st (keyFor freshId) ∧
    loadIndex (applyWrites st ((convHandler env req freshId now st).writes.take 1)) =
      postMeta env req freshId now :: loadIndex st := by
  have hout : convHandler env req freshId now st =
      ⟨.created freshId,
        applyWrites st [(INDEX_KEY, encodeIndex (postMeta env req freshId now :: loadIndex st)),
          (keyFor freshId, encodeLog [])],
        [(INDEX_KEY, encodeIndex (postMeta env req freshId now :: loadIndex st)),
          (keyFor freshId, encodeLog [])]⟩ := by
    simp [convHandler, hm]
  rw [hout]
  simp only [applyWrites, List.take_succ_cons, List.take_zero, List.map_cons, List.map_nil]
  refine ⟨trivial, trivial, ?_, ?_, rfl, ?_, ?_⟩
  · exact readHistory_setBlob_self _ _ _
  · rw [loadIndex_congr
      (setBlob (setBlob st INDEX_KEY (encodeIndex (postMeta env req freshId now :: loadIndex st)))
        (keyFor freshId) (encodeLog []))
      (setBlob st INDEX_KEY (encodeIndex (postMeta env req freshId now :: loadIndex st)))
      (setBlob_other _ _ _ _ (Ne.symm hk))]
    exact loadIndex_setIndex _ _
  · exact setBlob_other _ _ _ _ hk
  · exact loadIndex_setIndex _ _

theorem conv_create_order_witness :
    strUpper "POST" = "POST" ∧ keyFor "c1" ≠ INDEX_KEY ∧
    ((convHandler ⟨none, false⟩ ⟨"POST", none, ⟨none, none, none⟩⟩ "c1" 3 emptyStore).resp =
        .created "c1" ∧
    (convHandler ⟨none, false⟩ ⟨"POST", none, ⟨none, none, none⟩⟩ "c1" 3 emptyStore).writes.map
        Prod.fst = [INDEX_KEY, keyFor "c1"] ∧
    readHistory (convHandler ⟨none, false⟩ ⟨"POST", none, ⟨none, none, none⟩⟩ "c1" 3
        emptyStore).store (keyFor "c1") = .ok [] ∧
    loadIndex (convHandler ⟨none, false⟩ ⟨"POST", none, ⟨none, none, none⟩⟩ "c1" 3
        emptyStore).store =
      postMeta ⟨none, false⟩ ⟨"POST", none, ⟨none, none, none⟩⟩ "c1" 3 :: loadIndex emptyStore ∧
    (postMeta ⟨none, false⟩ ⟨"POST", none, ⟨none, none, none⟩⟩ "c1" 3).id = "c1" ∧
    applyWrites emptyStore ((convHandler ⟨none, false⟩ ⟨"POST", none, ⟨none, none, none⟩⟩ "c1" 3
        emptyStore).writes.take 1) (keyFor "c1") = emptyStore (keyFor "c1") ∧
    loadIndex (applyWrites emptyStore ((convHandler ⟨none, false⟩ ⟨"POST", none,
        ⟨none, none, none⟩⟩ "c1" 3 emptyStore).writes.take 1)) =
      postMeta ⟨none, false⟩ ⟨"POST", none, ⟨none, none, none⟩⟩ "c1" 3 :: loadIndex emptyStore) :=
  ⟨rfl, by decide,
    conv_create_order ⟨none, false⟩ ⟨"POST", none, ⟨none, none, none⟩⟩ "c1" 3 emptyStore
      rfl (by decide)⟩

/-! ## Claim C6: PATCH /conversations -/

/-- C6: for a PATCH request carrying an id and at least one effective field:
if the id is absent from the stored index the handler answers 404 and leaves
the store unchanged; if it is present, exactly the first matching entry is
replaced by one with the same id and createdAt, the title and/or model named
in the request (title truncated to 60 characters), and updatedAt bumped to
now, with every other index entry unchanged. -/
theorem conv_patch_frame
    (env : ConvEnv) (req : ConvReq) (freshId : String) (now : Int) (st : Store)
    (hm : strUpper req.httpMethod = "PATCH")
    (hid : effIdOf req ≠ "")
    (hguard : ¬ (strFalsy (titleOptOf req) = true ∧ strFalsy (modelOptOf req) = true)) :
    ((∀ y ∈ loadIndex st, y.id ≠ effIdOf req) →
      (convHandler env req freshId now st).resp = .notFound ∧
      (convHandler env req freshId now st).store = st) ∧
    (∀ (pre post : List ConvMeta) (x : ConvMeta),
      loadIndex st = pre ++ x :: post →
      (∀ y ∈ pre, y.id ≠ effIdOf req) →
      x.id = effIdOf req →
      ∃ x2 : ConvMeta,
        (convHandler env req freshId now st).resp = .patched x2 ∧
        loadIndex (convHandler env req freshId now st).store = pre ++ x2 :: post ∧
        x2.id = x.id ∧
        x2.createdAt = x.createdAt ∧
        x2.updatedAt = now ∧
        x2.title = (titleOptOf req).getD x.title ∧
        x2.model = (modelOptOf req).getD x.model ∧
        (∀ t, req.body.title = some (.jstr t) → x2.title = strTake t 60)) := by
  have hguard2 : ¬ (effIdOf req = "" ∨
      (strFalsy (titleOptOf req) = true ∧ strFalsy (modelOptOf req) = true)) := by
    rintro (h | h)
    · exact hid h
    · exact hguard h
  constructor
  · intro habs
    have hnone := patchList_not_found (effIdOf req) (titleOptOf req) (modelOptOf req) now
      (loadIndex st) habs
    have hout : convHandler env req freshId now st = ⟨.notFound, st, []⟩ := by
      simp [convHandler, hm, hguard2, hnone]
    rw [hout]
    exact ⟨rfl, rfl⟩
  · intro pre post x hsplit hpre hx
    have hfound := patchList_found (effIdOf req) (titleOptOf req) (modelOptOf req) now
      pre x post hpre hx
    refine ⟨({ x with title := (titleOptOf req).getD x.title, model := (modelOptOf req).getD x.model, updatedAt := now } : ConvMeta), ?_⟩
    have hout : convHandler env req freshId now st =
        ⟨.patched ({ x with title := (titleOptOf req).getD x.title, model := (modelOptOf req).getD x.model, updatedAt := now } : ConvMeta),
          applyWrites st [(INDEX_KEY, encodeIndex (pre ++ ({ x with title := (titleOptOf req).getD x.title, model := (modelOptOf req).getD x.model, updatedAt := now } : ConvMeta) :: post))],
          [(INDEX_KEY, encodeIndex (pre ++ ({ x with title := (titleOptOf req).getD x.title, model := (modelOptOf req).getD x.model, updatedAt := now } : ConvMeta) :: post))]⟩ := by
      simp [convHandler, hm, hguard2, hsplit, hfound]
    rw [hout]
    refine ⟨rfl, ?_, rfl, rfl, rfl, rfl, rfl, ?_⟩
    · simp only [applyWrites]
      exact loadIndex_setIndex _ _
    · intro t ht
      simp [titleOptOf, ht]

theorem conv_patch_frame_witness :
    effIdOf ⟨"PATCH", none, ⟨some (.jstr "b"), some (.jstr "NewTitle"), none⟩⟩ ≠ "" ∧
    (((∀ y ∈ loadIndex (setBlob emptyStore INDEX_KEY
        (encodeIndex [⟨"a", "t0", "m0", 1, 1⟩, ⟨"b", "t1", "m1", 2, 2⟩])),
        y.id ≠ effIdOf ⟨"PATCH", none, ⟨some (.jstr "b"), some (.jstr "NewTitle"), none⟩⟩) →
      (convHandler ⟨none, false⟩ ⟨"PATCH", none, ⟨some (.jstr "b"), some (.jstr "NewTitle"), none⟩⟩
        "f0" 9 (setBlob emptyStore INDEX_KEY
          (encodeIndex [⟨"a", "t0", "m0", 1, 1⟩, ⟨"b", "t1", "m1", 2, 2⟩]))).resp = .notFound ∧
      (convHandler ⟨none, false⟩ ⟨"PATCH", none, ⟨some (.jstr "b"), some (.jstr "NewTitle"), none⟩⟩
        "f0" 9 (setBlob emptyStore INDEX_KEY
          (encodeIndex [⟨"a", "t0", "m0", 1, 1⟩, ⟨"b", "t1", "m1", 2, 2⟩]))).store =
        setBlob emptyStore INDEX_KEY
          (encodeIndex [⟨"a", "t0", "m0", 1, 1⟩, ⟨"b", "t1", "m1", 2, 2⟩])) ∧
    (∀ (pre post : List ConvMeta) (x : ConvMeta),
      loadIndex (setBlob emptyStore INDEX_KEY
        (encodeIndex [⟨"a", "t0", "m0", 1, 1⟩, ⟨"b", "t1", "m1", 2, 2⟩])) = pre ++ x :: post →
      (∀ y ∈ pre, y.id ≠ effIdOf ⟨"PATCH", none, ⟨some (.jstr "b"), some (.jstr "NewTitle"), none⟩⟩) →
      x.id = effIdOf ⟨"PATCH", none, ⟨some (.jstr "b"), some (.jstr "NewTitle"), none⟩⟩ →
      ∃ x2 : ConvMeta,
        (convHandler ⟨none, false⟩ ⟨"PATCH", none, ⟨some (.jstr "b"), some (.jstr "NewTitle"), none⟩⟩
          "f0" 9 (setBlob emptyStore INDEX_KEY
            (encodeIndex [⟨"a", "t0", "m0", 1, 1⟩, ⟨"b", "t1", "m1", 2, 2⟩]))).resp = .patched x2 ∧
        loadIndex (convHandler ⟨none, false⟩
          ⟨"PATCH", none, ⟨some (.jstr "b"), some (.jstr "NewTitle"), none⟩⟩
          "f0" 9 (setBlob emptyStore INDEX_KEY
            (encodeIndex [⟨"a", "t0", "m0", 1, 1⟩, ⟨"b", "t1", "m1", 2, 2⟩]))).store =
          pre ++ x2 :: post ∧
        x2.id = x.id ∧
        x2.createdAt = x.createdAt ∧
        x2.updatedAt = 9 ∧
        x2.title = (titleOptOf ⟨"PATCH", none,
          ⟨some (.jstr "b"), some (.jstr "NewTitle"), none⟩⟩).getD x.title ∧
        x2.model = (modelOptOf ⟨"PATCH", none,
          ⟨some (.jstr "b"), some (.jstr "NewTitle"), none⟩⟩).getD x.model ∧
        (∀ t, (⟨"PATCH", none, ⟨some (.jstr "b"), some (.jstr "NewTitle"), none⟩⟩ :
            ConvReq).body.title = some (.jstr t) → x2.title = strTake t 60))) :=
  ⟨by decide,
    conv_patch_frame ⟨none, false⟩ ⟨"PATCH", none, ⟨some (.jstr "b"), some (.jstr "NewTitle"), none⟩⟩
      "f0" 9 (setBlob emptyStore INDEX_KEY
        (encodeIndex [⟨"a", "t0", "m0", 1, 1⟩, ⟨"b", "t1", "m1", 2, 2⟩]))
      rfl (by decide) (by decide)⟩

/-! ## Lemmas about the title pipeline -/

theorem collapseWs_mem (l : List Char) : ∀ c ∈ collapseWs l, c ∈ l ∨ c = ' ' := by
  induction l using collapseWs.induct with
  | case1 => intro c h; simp [collapseWs] at h
  | case2 c2 cs hws ih =>
    intro c h
    rw [collapseWs, if_pos hws] at h
    simp only [List.mem_cons] at h
    rcases h with rfl | h
    · right; rfl
    · rcases ih c h with h2 | h2
      · left
        exact List.mem_cons_of_mem _ (List.dropWhile_subset _ h2)
      · right; exact h2
  | case3 c2 cs hws ih =>
    intro c h
    rw [collapseWs, if_neg hws] at h
    simp only [List.mem_cons] at h
    rcases h with rfl | h
    · left; simp
    · rcases ih c h with h2 | h2
      · left; simp [h2]
      · right; exact h2

theorem dashNorm_mem (l : List Char) : ∀ c ∈ dashNorm l, c ∈ l ∨ c = ' ' ∨ c = '-' := by
  induction l using dashNorm.induct with
  | case1 => intro c h; simp [dashNorm] at h
  | case2 c2 cs hdash ih =>
    intro c h
    rw [dashNorm, if_pos hdash] at h
    simp only [List.mem_cons] at h
    rcases h with rfl | rfl | rfl | h
    · right; left; rfl
    · right; right; rfl
    · right; left; rfl
    · rcases ih c h with h2 | h2
      · left
        exact List.mem_cons_of_mem _ (List.dropWhile_subset _ h2)
      · right; exact h2
  | case3 c2 cs hdash hlook ih =>
    intro c h
    rw [dashNorm, if_neg hdash, if_pos hlook] at h
    simp only [List.mem_cons] at h
    rcases h with rfl | rfl | rfl | h
    · right; left; rfl
    · right; right; rfl
    · right; left; rfl
    · rcases ih c h with h2 | h2
      · left
        have h3 : c ∈ (cs.dropWhile jsWs).tail :=
          List.dropWhile_subset _ h2
        have h4 : c ∈ cs.dropWhile jsWs := (List.tail_sublist _).subset h3
        exact List.mem_cons_of_mem _ (List.dropWhile_subset _ h4)
      · right; exact h2
  | case4 c2 cs hdash hlook ih =>
    intro c h
    rw [dashNorm, if_neg hdash, if_neg hlook] at h
    simp only [List.mem_cons] at h
    rcases h with rfl | h
    · left; simp
    · rcases ih c h with h2 | h2
      · left; simp [h2]
      · right; exact h2

theorem jsTrimList_mem (l : List Char) : ∀ c ∈ jsTrimList l, c ∈ l := by
  intro c h
  simp only [jsTrimList, List.mem_reverse] at h
  have h2 := List.dropWhile_subset _ h
  rw [List.mem_reverse] at h2
  exact List.dropWhile_subset _ h2

theorem splitSp_ne_nil (l : List Char) : splitSp l ≠ [] := by
  cases l with
  | nil => simp [splitSp]
  | cons c cs =>
    by_cases h : c = ' '
    · simp [splitSp, h]
    · simp only [splitSp, if_neg h]
      cases hs : splitSp cs <;> simp

theorem splitSp_no_space (l : List Char) : ∀ w ∈ splitSp l, ∀ c ∈ w, c ≠ ' ' := by
  induction l with
  | nil =>
    intro w hw c hc
    simp only [splitSp, List.mem_singleton] at hw
    subst hw
    simp at hc
  | cons a as ih =>
    intro w hw c hc
    by_cases h : a = ' '
    · rw [splitSp, if_pos h] at hw
      simp only [List.mem_cons] at hw
      rcases hw with rfl | hw
      · simp at hc
      · exact ih w hw c hc
    · rw [splitSp, if_neg h] at hw
      cases hs : splitSp as with
      | nil => exact absurd hs (splitSp_ne_nil as)
      | cons w2 ws =>
        rw [hs] at hw
        simp only [List.mem_cons] at hw
        rcases hw with rfl | hw
        · simp only [List.mem_cons] at hc
          rcases hc with rfl | hc
          · exact h
          · exact ih w2 (by rw [hs]; exact List.mem_cons_self _ _) c hc
        · exact ih w (by rw [hs]; exact List.mem_cons_of_mem _ hw) c hc

theorem splitSp_chars (l : List Char) : ∀ w ∈ splitSp l, ∀ c ∈ w, c ∈ l := by
  induction l with
  | nil =>
    intro w hw c hc
    simp only [splitSp, List.mem_singleton] at hw
    subst hw
    simp at hc
  | cons a as ih =>
    intro w hw c hc
    by_cases h : a = ' '
    · rw [splitSp, if_pos h] at hw
      simp only [List.mem_cons] at hw
      rcases hw with rfl | hw
      · simp at hc
      · exact List.mem_cons_of_mem _ (ih w hw c hc)
    · rw [splitSp, if_neg h] at hw
      cases hs : splitSp as with
      | nil => exact absurd hs (splitSp_ne_nil as)
      | cons w2 ws =>
        rw [hs] at hw
        simp only [List.mem_cons] at hw
        rcases hw with rfl | hw
        · simp only [List.mem_cons] at hc
          rcases hc with rfl | hc
          · simp
          · exact List.mem_cons_of_mem _
              (ih w2 (by rw [hs]; exact List.mem_cons_self _ _) c hc)
        · exact List.mem_cons_of_mem _
            (ih w (by rw [hs]; exact List.mem_cons_of_mem _ hw) c hc)

theorem joinSp_count (ws : List (List Char)) (h : ∀ w ∈ ws, ∀ c ∈ w, c ≠ ' ') :
    (joinSp ws).count ' ' ≤ ws.length - 1 := by
  induction ws with
  | nil => simp [joinSp]
  | cons w ws ih =>
    cases ws with
    | nil =>
      have hw : ' ' ∉ w := fun hc => h w (by simp) ' ' hc rfl
      simp [joinSp, List.count_eq_zero.mpr hw]
    | cons w2 ws2 =>
      have hw : ' ' ∉ w := fun hc => h w (by simp) ' ' hc rfl
      have ih2 := ih (fun v hv => h v (by simp [hv]))
      have hj : joinSp (w :: w2 :: ws2) = w ++ ' ' :: joinSp (w2 :: ws2) := rfl
      rw [hj, List.count_append, List.count_cons_self, List.count_eq_zero.mpr hw]
      simp only [List.length_cons] at ih2 ⊢
      omega

theorem joinSp_mem (ws : List (List Char)) :
    ∀ c ∈ joinSp ws, c = ' ' ∨ ∃ w ∈ ws, c ∈ w := by
  induction ws with
  | nil => simp [joinSp]
  | cons w ws ih =>
    cases ws with
    | nil =>
      intro c h
      right
      exact ⟨w, by simp, by simpa [joinSp] using h⟩
    | cons w2 ws2 =>
      intro c h
      have hj : joinSp (w :: w2 :: ws2) = w ++ ' ' :: joinSp (w2 :: ws2) := rfl
      rw [hj] at h
      simp only [List.mem_append, List.mem_cons] at h
      rcases h with h | rfl | h
      · right; exact ⟨w, by simp, h⟩
      · left; rfl
      · rcases ih c h with h2 | ⟨w3, hw3, hc3⟩
        · left; exact h2
        · right; exact ⟨w3, by simp [hw3], hc3⟩

theorem lookup_mem_pairs {b : Type} (l : List (Char × b)) (a : Char) (v : b)
    (h : l.lookup a = some v) : (a, v) ∈ l := by
  induction l with
  | nil => cases h
  | cons p ps ih =>
    cases p with
    | mk k w =>
      rw [List.lookup] at h
      by_cases hk : a == k
      · simp only [hk, Option.some.injEq] at h
        subst h
        rw [show a = k from by simpa using hk]
        exact List.mem_cons_self _ _
      · simp only [Bool.not_eq_true] at hk
        simp only [hk] at h
        exact List.mem_cons_of_mem _ (ih h)

theorem specialUpperTable_props :
    ∀ p ∈ specialUpperTable, p.2 ≠ [] ∧ p.2.length ≤ 3 ∧
      (∀ d ∈ p.2, quoteChar d = false ∧ d ≠ ' ') ∧
      (∀ d, p.2.head? = some d → d.isLower = false) := by decide

theorem specialUpperTable_no_space_key : specialUpperTable.lookup ' ' = none := by decide

theorem jsUpperChar_ne_nil (c : Char) : jsUpperChar c ≠ [] := by
  rw [jsUpperChar]
  cases h : specialUpperTable.lookup c with
  | none => simp
  | some l =>
    have hp := specialUpperTable_props _ (lookup_mem_pairs _ _ _ h)
    simpa using hp.1

theorem jsUpperChar_length (c : Char) : (jsUpperChar c).length ≤ 3 := by
  rw [jsUpperChar]
  cases h : specialUpperTable.lookup c with
  | none => simp
  | some l =>
    have hp := specialUpperTable_props _ (lookup_mem_pairs _ _ _ h)
    simpa using hp.2.1

theorem jsUpperChar_count (c : Char) :
    (jsUpperChar c).count ' ' = ([c] : List Char).count ' ' := by
  by_cases hsp : c = ' '
  · subst hsp
    rw [jsUpperChar, specialUpperTable_no_space_key]
    decide
  · rw [jsUpperChar]
    cases h : specialUpperTable.lookup c with
    | none =>
      have h2 : c.toUpper ≠ ' ' := fun hc => hsp ((toUpper_eq_space_iff c).mp hc)
      simp [List.count_singleton, List.count_eq_zero, h2, hsp]
    | some l =>
      have hp := specialUpperTable_props _ (lookup_mem_pairs _ _ _ h)
      have hz : (' ' : Char) ∉ l := fun hm => absurd rfl (hp.2.2.1 ' ' hm).2
      simp [List.count_eq_zero.mpr hz, List.count_singleton, hsp]

theorem jsUpperChar_quote (c : Char) (h : quoteChar c = false) :
    ∀ d ∈ jsUpperChar c, quoteChar d = false := by
  rw [jsUpperChar]
  cases hl : specialUpperTable.lookup c with
  | none =>
    intro d hd
    simp only [Option.getD_none, List.mem_singleton] at hd
    subst hd
    exact quoteChar_toUpper c h
  | some l =>
    have hp := specialUpperTable_props _ (lookup_mem_pairs _ _ _ hl)
    intro d hd
    simp only [Option.getD_some] at hd
    exact (hp.2.2.1 d hd).1

theorem jsUpperChar_head (c d : Char) (h : (jsUpperChar c).head? = some d) :
    d.isLower = false := by
  rw [jsUpperChar] at h
  cases hl : specialUpperTable.lookup c with
  | none =>
    rw [hl] at h
    simp only [Option.getD_none, List.head?_cons, Option.some.injEq] at h
    subst h
    exact isLower_toUpper c
  | some l =>
    have hp := specialUpperTable_props _ (lookup_mem_pairs _ _ _ hl)
    rw [hl] at h
    exact hp.2.2.2 d h

theorem count_capFirst (l : List Char) : (capFirst l).count ' ' = l.count ' ' := by
  cases l with
  | nil => rfl
  | cons c cs =>
    show (jsUpperChar c ++ cs).count ' ' = (c :: cs).count ' '
    rw [List.count_append, jsUpperChar_count]
    simp [List.count_cons, List.count_singleton]
    omega

theorem length_capFirst (l : List Char) : (capFirst l).length ≤ l.length + 2 := by
  cases l with
  | nil => simp [capFirst]
  | cons c cs =>
    show (jsUpperChar c ++ cs).length ≤ (c :: cs).length + 2
    rw [List.length_append, List.length_cons]
    have := jsUpperChar_length c
    omega

theorem capFirst_quote (l : List Char) (h : ∀ c ∈ l, quoteChar c = false) :
    ∀ c ∈ capFirst l, quoteChar c = false := by
  cases l with
  | nil => simp [capFirst]
  | cons a as =>
    intro c hc
    rcases List.mem_append.mp (by simpa [capFirst] using hc) with hc2 | hc2
    · exact jsUpperChar_quote a (h a (by simp)) c hc2
    · exact h c (by simp [hc2])

theorem capFirst_head (l : List Char) (c : Char) (h : (capFirst l).head? = some c) :
    c.isLower = false := by
  cases l with
  | nil => simp [capFirst] at h
  | cons d ds =>
    have hne := jsUpperChar_ne_nil d
    rw [show capFirst (d :: ds) = jsUpperChar d ++ ds from rfl,
      List.head?_append_of_ne_nil _ hne] at h
    exact jsUpperChar_head d c h

theorem wordsStage_count (noPunct : List Char) :
    (joinSp ((splitSp noPunct).take 10)).count ' ' ≤ 9 := by
  have h1 : ∀ w ∈ (splitSp noPunct).take 10, ∀ c ∈ w, c ≠ ' ' :=
    fun w hw => splitSp_no_space noPunct w ((List.take_sublist _ _).subset hw)
  have h2 := joinSp_count _ h1
  have h3 : ((splitSp noPunct).take 10).length ≤ 10 := by
    rw [List.length_take]
    omega
  omega

theorem wordsStage_mem (l : List Char) :
    ∀ c ∈ joinSp ((splitSp l).take 10), c = ' ' ∨ c ∈ l := by
  intro c h
  rcases joinSp_mem _ c h with h2 | ⟨w, hw, hc⟩
  · left; exact h2
  · right; exact splitSp_chars l w ((List.take_sublist _ _).subset hw) c hc

theorem capTrunc_length (words : List Char) :
    (capFirst (if 56 < words.length then words.take 53 ++ [hellip] else words)).length ≤ 58 := by
  have h := length_capFirst (if 56 < words.length then words.take 53 ++ [hellip] else words)
  have h2 : (if 56 < words.length then words.take 53 ++ [hellip] else words).length ≤ 56 := by
    split
    · rw [List.length_append, List.length_take]
      simp only [List.length_singleton]
      omega
    · next hn => omega
  omega

theorem capTrunc_count (words : List Char) (h : words.count ' ' ≤ 9) :
    (capFirst (if 56 < words.length then words.take 53 ++ [hellip] else words)).count ' '
      ≤ 9 := by
  rw [count_capFirst]
  split
  · have h1 : (words.take 53).count ' ' ≤ words.count ' ' := (List.take_sublist _ _).count_le _
    have h2 : ([hellip] : List Char).count ' ' = 0 := by decide
    rw [List.count_append, h2]
    omega
  · exact h

theorem capTrunc_quote (words : List Char) (h : ∀ c ∈ words, quoteChar c = false) :
    ∀ c ∈ capFirst (if 56 < words.length then words.take 53 ++ [hellip] else words),
      quoteChar c = false := by
  apply capFirst_quote
  split
  · intro c hc
    rcases List.mem_append.mp hc with h2 | h2
    · exact h c ((List.take_sublist _ _).subset h2)
    · simp only [List.mem_singleton] at h2
      subst h2
      decide
  · exact h

theorem noPunct_quote (base : List Char) :
    ∀ c ∈ dashNorm (base.filter (fun c => !(quoteChar c))), quoteChar c = false := by
  intro c h
  rcases dashNorm_mem _ c h with h2 | rfl | rfl
  · have h3 := List.of_mem_filter h2
    simpa using h3
  · decide
  · decide

theorem inferTitleCore_length (u a : List Char) : (inferTitleCore u a).length ≤ 58 := by
  simp only [inferTitleCore]
  exact capTrunc_length _

theorem inferTitleCore_count (u a : List Char) : (inferTitleCore u a).count ' ' ≤ 9 := by
  simp only [inferTitleCore]
  exact capTrunc_count _ (wordsStage_count _)

theorem inferTitleCore_quote (u a : List Char) :
    ∀ c ∈ inferTitleCore u a, quoteChar c = false := by
  simp only [inferTitleCore]
  apply capTrunc_quote
  intro c hc
  rcases wordsStage_mem _ c hc with rfl | h3
  · decide
  · exact noPunct_quote _ c h3

theorem inferTitleCore_head (u a : List Char) (c : Char)
    (h : (inferTitleCore u a).head? = some c) : c.isLower = false := by
  simp only [inferTitleCore] at h
  exact capFirst_head _ _ h

/-! ## Claim C8: the title-inference heuristic -/

/-- C8 (amended): the client-side title patch fires only when the component
saw exactly one prior message; `inferTitleFrom` depends only on the user
message when it is non-empty, falls back to the assistant text and then to
"New chat"; its pre-capitalization stage has at most 56 characters, and the
final capitalization maps the first character through Unicode uppercasing,
which can expand it to up to three characters, so the output has at most 58
characters; it has at most 10 space-separated words (at most 9 spaces), no
quote or colon characters, and a non-lowercase first character. -/
theorem title_inference_props :
    (∀ (messages : List CMessage) (a : String) (cid : Option String),
      titlePatch messages a cid ≠ none → messages.length = 1) ∧
    (∀ u a a2 : String, u ≠ "" → inferTitleFrom u a = inferTitleFrom u a2) ∧
    (∀ a : String, a ≠ "" → inferTitleFrom "" a = inferTitleFrom a a) ∧
    inferTitleFrom "" "" = "New chat" ∧
    (∀ u a : String, (inferTitleFrom u a).length ≤ 58) ∧
    (∀ u a : String, (inferTitleFrom u a).data.count ' ' ≤ 9) ∧
    (∀ u a : String, ∀ c ∈ (inferTitleFrom u a).data, quoteChar c = false) ∧
    (∀ (u a : String) (c : Char),
      (inferTitleFrom u a).data.head? = some c → c.isLower = false) := by
  refine ⟨?_, ?_, ?_, ?_, ?_, ?_, ?_, ?_⟩
  · intro msgs a cid h
    by_cases hc : a ≠ "" ∧ msgs.length = 1 ∧ (cid.getD "") ≠ ""
    · exact hc.2.1
    · rw [titlePatch, if_neg hc] at h
      exact absurd rfl h
  · intro u a a2 hu
    have hd : u.data ≠ [] := fun h => hu (by cases u with | mk d => cases h; rfl)
    simp [inferTitleFrom, inferTitleCore, titleBase, hd]
  · intro a ha
    have hd : a.data ≠ [] := fun h => ha (by cases a with | mk d => cases h; rfl)
    have h0 : ("" : String).data = [] := rfl
    simp [inferTitleFrom, inferTitleCore, titleBase, hd, h0]
  · have hb : titleBase ("" : String).data ("" : String).data =
        ['N', 'e', 'w', ' ', 'c', 'h', 'a', 't'] := by decide
    have hc1 : collapseWs ['N', 'e', 'w', ' ', 'c', 'h', 'a', 't'] =
        ['N', 'e', 'w', ' ', 'c', 'h', 'a', 't'] := by
      simp +decide [collapseWs, jsWs]
    have hf : ((jsTrimList ['N', 'e', 'w', ' ', 'c', 'h', 'a', 't']).filter
        (fun c => !(quoteChar c))) = ['N', 'e', 'w', ' ', 'c', 'h', 'a', 't'] := by decide
    have hdash : dashNorm ['N', 'e', 'w', ' ', 'c', 'h', 'a', 't'] =
        ['N', 'e', 'w', ' ', 'c', 'h', 'a', 't'] := by
      simp +decide [dashNorm, jsWs, isDashChar]
    show String.mk (inferTitleCore ("" : String).data ("" : String).data) = "New chat"
    simp only [inferTitleCore]
    rw [hb, hc1, hf, hdash]
    decide
  · intro u a
    exact inferTitleCore_length u.data a.data
  · intro u a
    exact inferTitleCore_count u.data a.data
  · intro u a
    exact inferTitleCore_quote u.data a.data
  · intro u a
    exact inferTitleCore_head u.data a.data

theorem title_inference_props_witness :
    ("What is the capital of France?" : String) ≠ "" ∧
    titlePatch [⟨.user, "What is the capital of France?"⟩] "Paris." (some "c1") ≠ none ∧
    inferTitleFrom "What is the capital of France?" "Paris." =
      inferTitleFrom "What is the capital of France?" "" ∧
    (inferTitleFrom "What is the capital of France?" "Paris.").length ≤ 58 :=
  ⟨by decide,
    by
      intro h
      have h1 := title_inference_props.1 [⟨.user, "What is the capital of France?"⟩]
        "Paris." (some "c1")
      simp [titlePatch] at h,
    title_inference_props.2.1 "What is the capital of France?" "Paris." "" (by decide),
    title_inference_props.2.2.2.2.1 "What is the capital of France?" "Paris."⟩

/-! ## Identity lemmas for inputs the pipeline leaves unchanged -/

theorem dropWhile_eq_self_of (p : Char → Bool) (l : List Char)
    (h : ∀ c ∈ l, p c = false) : l.dropWhile p = l := by
  cases l with
  | nil => rfl
  | cons c cs => simp [List.dropWhile_cons, h c (List.mem_cons_self _ _)]

theorem jsTrimList_id (l : List Char) (h : ∀ c ∈ l, jsWs c = false) : jsTrimList l = l := by
  rw [jsTrimList, dropWhile_eq_self_of _ _ h,
    dropWhile_eq_self_of _ _ (fun c hc => h c (by simpa using hc)), List.reverse_reverse]

theorem collapseWs_id (l : List Char) (h : ∀ c ∈ l, jsWs c = false) : collapseWs l = l := by
  induction l with
  | nil => simp [collapseWs]
  | cons c cs ih =>
    rw [collapseWs, if_neg (by simp [h c (List.mem_cons_self _ _)])]
    rw [ih (fun d hd => h d (by simp [hd]))]

theorem dashNorm_id (l : List Char) (h : ∀ c ∈ l, jsWs c = false ∧ isDashChar c = false) :
    dashNorm l = l := by
  induction l with
  | nil => simp [dashNorm]
  | cons c cs ih =>
    have h1 := h c (List.mem_cons_self _ _)
    rw [dashNorm, if_neg (by simp [h1.2]), if_neg (by simp [h1.1])]
    rw [ih (fun d hd => h d (by simp [hd]))]

theorem splitSp_single (l : List Char) (h : ∀ c ∈ l, c ≠ ' ') : splitSp l = [l] := by
  induction l with
  | nil => rfl
  | cons c cs ih =>
    rw [splitSp, if_neg (h c (List.mem_cons_self _ _))]
    rw [ih (fun d hd => h d (by simp [hd]))]

/-- C8 counterexample: for a 56-character user message beginning with the
sharp s (U+00DF), the heuristic skips truncation (56 is not greater than 56)
and the final `charAt(0).toUpperCase()` expands the first character to "SS",
yielding a 57-character title — the claimed 56-character bound fails on the
program. -/
theorem title_length_counterexample :
    (inferTitleFrom ⟨'ß' :: List.replicate 55 'a'⟩ "").length = 57 := by
  have hws : ∀ c ∈ ('ß' :: List.replicate 55 'a'), jsWs c = false := by decide
  have hda : ∀ c ∈ ('ß' :: List.replicate 55 'a'), jsWs c = false ∧ isDashChar c = false := by
    decide
  have hq : ∀ c ∈ ('ß' :: List.replicate 55 'a'), (!(quoteChar c)) = true := by decide
  have hsp : ∀ c ∈ ('ß' :: List.replicate 55 'a'), c ≠ ' ' := by decide
  have hbase : titleBase ('ß' :: List.replicate 55 'a') ("" : String).data =
      ('ß' :: List.replicate 55 'a') := by
    unfold titleBase
    rw [if_pos (by simp)]
  show (inferTitleCore ('ß' :: List.replicate 55 'a') ("" : String).data).length = 57
  simp only [inferTitleCore]
  rw [hbase, collapseWs_id _ hws, jsTrimList_id _ hws, List.filter_eq_self.mpr hq,
    dashNorm_id _ hda, splitSp_single _ hsp]
  rw [show ([('ß' :: List.replicate 55 'a')] : List (List Char)).take 10 =
    [('ß' :: List.replicate 55 'a')] from rfl]
  rw [show joinSp [('ß' :: List.replicate 55 'a')] = ('ß' :: List.replicate 55 'a') from rfl]
  rw [if_neg (by simp)]
  show (jsUpperChar 'ß' ++ List.replicate 55 'a').length = 57
  rw [show jsUpperChar 'ß' = ['S', 'S'] from by decide]
  simp
